import Mathlib

/-!
Verification of the flight recorder (a bounded circular event log) and the
GC reachability-tracing index, shallowly embedded from
`src/flight-recorder.cpp`, `src/flight-recorder.h` and `src/gc-tracing.cpp`.

The first part models the `FlightRecorder` class: a fixed-capacity circular
store of `Entry` records plus a parallel per-slot message arena.  The second
part models the reachability index of `gc-tracing.cpp`: the global state
(`g_targets`, `g_recording`, `g_index`, the flight-recorder enable flag),
the `Object` nodes, the `gc_record_*` callbacks invoked by the collector,
the session driver `jl_gc_trace` and the chain printer
`Object::dump_ancestor_chain`.
-/

namespace FlightRec

/-- One entry of the flight recorder (`FlightRecorder::Entry`): the source
file, line and function recorded by the `__FILE__` / `__LINE__` /
`__FUNCTION__` macros. -/
structure Entry where
  m_source : String
  m_line : Nat
  m_function : String
deriving DecidableEq, Repr, Inhabited

/-- State of a `FlightRecorder`.  The entry array `m_array` and the message
arena `m_buffer` (in C a single `m_capacity * m_message_sz` byte area, read
and written one whole per-slot message at a time) are modelled as functions
from the physical slot index. -/
structure FlightRecorder where
  m_end : Nat
  m_capacity : Nat
  m_is_full : Bool
  m_array : Nat → Entry
  m_buffer : Nat → String
  m_message_sz : Nat

/-- The constructor `FlightRecorder(capacity, message_sz)`.  `calloc` zeroes
both arrays; a zero capacity or an allocation failure is a fatal process
exit in the source and is excluded by the `0 < capacity` hypotheses of the
theorems below. -/
def FlightRecorder.new (capacity message_sz : Nat) : FlightRecorder :=
  { m_end := 0
    m_capacity := capacity
    m_is_full := false
    m_array := fun _ => default
    m_buffer := fun _ => ""
    m_message_sz := message_sz }

/-- `FlightRecorder::insert_c_api` combined with the caller formatting the
message into the returned buffer slot (exactly what the `FR` macro of
`flight-recorder.h` does with `snprintf`): store the entry metadata and the
message at slot `m_end`, advance the cursor and, when it reaches
`m_capacity`, wrap it to `0` and set `m_is_full`. -/
def FlightRecorder.insert_c_api (fr : FlightRecorder) (e : Entry) (msg : String) :
    FlightRecorder :=
  let arr := fun k => if k = fr.m_end then e else fr.m_array k
  let buf := fun k => if k = fr.m_end then msg else fr.m_buffer k
  if fr.m_end + 1 = fr.m_capacity then
    { fr with m_array := arr, m_buffer := buf, m_end := 0, m_is_full := true }
  else
    { fr with m_array := arr, m_buffer := buf, m_end := fr.m_end + 1 }

/-- `FlightRecorder::size`. -/
def FlightRecorder.size (fr : FlightRecorder) : Nat :=
  if fr.m_is_full then fr.m_capacity else fr.m_end

/-- `FlightRecorder::to_array_index`: translate the logical index
(`0` = oldest entry) to the physical slot.  The out-of-bounds guard is a
fatal process exit in the source and is modelled as `none` (the C `int64_t`
argument is only ever called with non-negative values, so the `index < 0`
half of the guard has no counterpart here). -/
def FlightRecorder.to_array_index (fr : FlightRecorder) (index : Nat) : Option Nat :=
  if fr.size ≤ index then none
  else if fr.m_is_full = false then some index
  else if index < fr.m_capacity - fr.m_end then some (fr.m_end + index)
  else some (index - (fr.m_capacity - fr.m_end))

/-- The total function computed by `to_array_index` once its bounds guard
has passed; proof plumbing for the lemmas below. -/
def FlightRecorder.physicalIndex (fr : FlightRecorder) (index : Nat) : Nat :=
  if fr.m_is_full = false then index
  else if index < fr.m_capacity - fr.m_end then fr.m_end + index
  else index - (fr.m_capacity - fr.m_end)

/-- One line printed by `FlightRecorder::dump` for one entry: the
countdown label `j`, the entry metadata and the slot's message.  The
`basename` stripping of `m_source` is host formatting (libgen) and out of
scope per the spec. -/
structure DumpLine where
  j : Nat
  entry : Entry
  message : String
deriving DecidableEq, Repr, Inhabited

/-- Traversal of a list through an `Option`-returning function, mirroring
the dump loop in which any failing `to_array_index` lookup kills the
process (modelled as `none`). -/
def traverseOption {α β : Type} (f : α → Option β) : List α → Option (List β)
  | [] => some []
  | a :: l =>
    match f a, traverseOption f l with
    | some b, some bs => some (b :: bs)
    | _, _ => none

/-- `FlightRecorder::dump(max_num_entries)`: print
`num = min(size(), max_num_entries)` entries, oldest to newest, iterating
the logical index `i` upward from `size() - num` while the printed label
`j` counts down from `num - 1`.  The header line carries no entry data and
is not modelled. -/
def FlightRecorder.dump (fr : FlightRecorder) (max_num_entries : Nat) :
    Option (List DumpLine) :=
  let num := min fr.size max_num_entries
  traverseOption
    (fun t =>
      (fr.to_array_index (fr.size - num + t)).map fun k =>
        { j := num - 1 - t, entry := fr.m_array k, message := fr.m_buffer k })
    (List.range num)

/-- A whole sequence of insertions, oldest first. -/
def insertAll (fr : FlightRecorder) (xs : List (Entry × String)) : FlightRecorder :=
  xs.foldl (fun s p => s.insert_c_api p.1 p.2) fr

/-- The entry and message stored at physical slot `k`. -/
def slotPair (fr : FlightRecorder) (k : Nat) : Entry × String :=
  (fr.m_array k, fr.m_buffer k)

-- Component lemmas for `insert_c_api`.

theorem insert_c_api_m_capacity (fr : FlightRecorder) (e : Entry) (msg : String) :
    (fr.insert_c_api e msg).m_capacity = fr.m_capacity := by
  unfold FlightRecorder.insert_c_api
  split <;> rfl

theorem insert_c_api_m_message_sz (fr : FlightRecorder) (e : Entry) (msg : String) :
    (fr.insert_c_api e msg).m_message_sz = fr.m_message_sz := by
  unfold FlightRecorder.insert_c_api
  split <;> rfl

theorem insert_c_api_m_end (fr : FlightRecorder) (e : Entry) (msg : String) :
    (fr.insert_c_api e msg).m_end =
      if fr.m_end + 1 = fr.m_capacity then 0 else fr.m_end + 1 := by
  unfold FlightRecorder.insert_c_api
  split <;> simp_all

theorem insert_c_api_m_is_full (fr : FlightRecorder) (e : Entry) (msg : String) :
    (fr.insert_c_api e msg).m_is_full =
      if fr.m_end + 1 = fr.m_capacity then true else fr.m_is_full := by
  unfold FlightRecorder.insert_c_api
  split <;> simp_all

theorem insert_c_api_m_array (fr : FlightRecorder) (e : Entry) (msg : String) :
    (fr.insert_c_api e msg).m_array =
      fun k => if k = fr.m_end then e else fr.m_array k := by
  unfold FlightRecorder.insert_c_api
  split <;> rfl

theorem insert_c_api_m_buffer (fr : FlightRecorder) (e : Entry) (msg : String) :
    (fr.insert_c_api e msg).m_buffer =
      fun k => if k = fr.m_end then msg else fr.m_buffer k := by
  unfold FlightRecorder.insert_c_api
  split <;> rfl

theorem insertAll_append_singleton (fr : FlightRecorder)
    (xs : List (Entry × String)) (y : Entry × String) :
    insertAll fr (xs ++ [y]) = (insertAll fr xs).insert_c_api y.1 y.2 := by
  simp [insertAll, List.foldl_append]

/-- Cursor and fullness flag after any number of insertions into a fresh
recorder: the cursor is the insertion count modulo the capacity, and the
recorder is full exactly when at least `C` insertions have happened. -/
theorem insertAll_state (C ms : Nat) (hC : 0 < C) (xs : List (Entry × String)) :
    (insertAll (FlightRecorder.new C ms) xs).m_end = xs.length % C ∧
    (insertAll (FlightRecorder.new C ms) xs).m_is_full = decide (C ≤ xs.length) ∧
    (insertAll (FlightRecorder.new C ms) xs).m_capacity = C := by
  induction xs using List.reverseRecOn with
  | nil =>
    refine ⟨by simp [insertAll, FlightRecorder.new], ?_, rfl⟩
    have : ¬ C ≤ 0 := by omega
    simp [insertAll, FlightRecorder.new, this]
  | append_singleton ys y ih =>
    obtain ⟨h1, h2, h3⟩ := ih
    rw [insertAll_append_singleton, insert_c_api_m_end, insert_c_api_m_is_full,
      insert_c_api_m_capacity, h1, h2, h3]
    have hlen : (ys ++ [y]).length = ys.length + 1 := by simp
    rw [hlen]
    have hm : ys.length % C < C := Nat.mod_lt _ hC
    have hle : ys.length % C ≤ ys.length := Nat.mod_le _ _
    have key : (ys.length + 1) % C = (ys.length % C + 1) % C :=
      (Nat.mod_add_mod ys.length C 1).symm
    by_cases hw : ys.length % C + 1 = C
    · have hmod : (ys.length + 1) % C = 0 := by rw [key, hw, Nat.mod_self]
      have hCle : C ≤ ys.length + 1 := by omega
      rw [if_pos hw, if_pos hw, hmod]
      refine ⟨rfl, ?_, rfl⟩
      simp [hCle]
    · have hlt : ys.length % C + 1 < C := by omega
      have hmod : (ys.length + 1) % C = ys.length % C + 1 := by
        rw [key, Nat.mod_eq_of_lt hlt]
      rw [if_neg hw, if_neg hw, hmod]
      refine ⟨rfl, ?_, rfl⟩
      by_cases hCL : C ≤ ys.length
      · have h4 : C ≤ ys.length + 1 := by omega
        simp [hCL, h4]
      · have heq : ys.length % C = ys.length := Nat.mod_eq_of_lt (by omega)
        have hne : ¬ C ≤ ys.length + 1 := by omega
        simp [hCL, hne]

/-- Once the bounds guard passes, `to_array_index` computes
`physicalIndex`. -/
theorem to_array_index_eq_physical (fr : FlightRecorder) (i : Nat) (hi : i < fr.size) :
    fr.to_array_index i = some (fr.physicalIndex i) := by
  unfold FlightRecorder.to_array_index FlightRecorder.physicalIndex
  rw [if_neg (by omega)]
  by_cases hF : fr.m_is_full = false
  · rw [if_pos hF, if_pos hF]
  · rw [if_neg hF, if_neg hF]
    by_cases hlt : i < fr.m_capacity - fr.m_end
    · rw [if_pos hlt, if_pos hlt]
    · rw [if_neg hlt, if_neg hlt]

/-- For a full buffer with its cursor in range, the branchy translation of
`to_array_index` is addition modulo the capacity. -/
theorem physicalIndex_full_mod (fr : FlightRecorder) (i : Nat)
    (hF : fr.m_is_full = true) (hE : fr.m_end < fr.m_capacity)
    (hi : i < fr.m_capacity) :
    fr.physicalIndex i = (fr.m_end + i) % fr.m_capacity := by
  unfold FlightRecorder.physicalIndex
  rw [hF]
  simp only [Bool.true_eq_false, if_false]
  by_cases h : i < fr.m_capacity - fr.m_end
  · rw [if_pos h, Nat.mod_eq_of_lt (by omega)]
  · rw [if_neg h]
    have h2 : fr.m_capacity ≤ fr.m_end + i := by omega
    rw [Nat.mod_eq_sub_mod h2, Nat.mod_eq_of_lt (by omega)]
    omega

/-- C4 (index translation is modular arithmetic): for a full ring buffer
the physical slot of logical index `i` — `end + i` when
`i < capacity - end`, else `i - (capacity - end)` — equals
`(end + i) mod capacity`; for a non-full buffer it is `i` itself. -/
theorem to_array_index_mod_correct (fr : FlightRecorder) (i : Nat) (hi : i < fr.size) :
    (fr.m_is_full = true → fr.m_end < fr.m_capacity →
      fr.to_array_index i = some ((fr.m_end + i) % fr.m_capacity)) ∧
    (fr.m_is_full = false → fr.to_array_index i = some i) := by
  constructor
  · intro hF hE
    rw [to_array_index_eq_physical fr i hi]
    have hiC : i < fr.m_capacity := by
      have : fr.size = fr.m_capacity := by simp [FlightRecorder.size, hF]
      omega
    rw [physicalIndex_full_mod fr i hF hE hiC]
  · intro hF
    rw [to_array_index_eq_physical fr i hi]
    unfold FlightRecorder.physicalIndex
    rw [if_pos hF]

/-- Witness for `to_array_index_mod_correct`: a concrete full buffer with
capacity 3 and cursor 2, queried at logical index 1. -/
theorem to_array_index_mod_correct_witness :
    (1 < (FlightRecorder.mk 2 3 true (fun _ => default) (fun _ => "") 8).size) ∧
    ((FlightRecorder.mk 2 3 true (fun _ => default) (fun _ => "") 8).m_is_full = true →
      (FlightRecorder.mk 2 3 true (fun _ => default) (fun _ => "") 8).m_end <
        (FlightRecorder.mk 2 3 true (fun _ => default) (fun _ => "") 8).m_capacity →
      (FlightRecorder.mk 2 3 true (fun _ => default) (fun _ => "") 8).to_array_index 1 =
        some ((2 + 1) % 3)) ∧
    ((FlightRecorder.mk 2 3 true (fun _ => default) (fun _ => "") 8).m_is_full = false →
      (FlightRecorder.mk 2 3 true (fun _ => default) (fun _ => "") 8).to_array_index 1 =
        some 1) := by
  refine ⟨by decide, ?_⟩
  exact to_array_index_mod_correct (FlightRecorder.mk 2 3 true (fun _ => default)
    (fun _ => "") 8) 1 (by decide)

theorem getD_append_lt {α : Type} (l l2 : List α) (i : Nat) (d : α)
    (h : i < l.length) : (l ++ l2).getD i d = l.getD i d := by
  induction l generalizing i with
  | nil => simp at h
  | cons a t ihl =>
    cases i with
    | zero => rfl
    | succ n =>
      have := ihl n (by simpa using h)
      simpa [List.getD] using this

theorem getD_snoc_length {α : Type} (l : List α) (y : α) (d : α) :
    (l ++ [y]).getD l.length d = y := by
  induction l with
  | nil => rfl
  | cons a t ihl =>
    simp only [List.cons_append, List.length_cons, List.getD_cons_succ]
    exact ihl

/-- Content of the buffer after any number of insertions into a fresh
recorder: logical position `i` (0 = oldest) holds the `i`-th of the last
`min N C` insertions. -/
theorem insertAll_content (C ms : Nat) (hC : 0 < C) (xs : List (Entry × String)) :
    ∀ i : Nat, i < min xs.length C →
      slotPair (insertAll (FlightRecorder.new C ms) xs)
          ((insertAll (FlightRecorder.new C ms) xs).physicalIndex i) =
        xs.getD (xs.length - min xs.length C + i) (default, "") := by
  induction xs using List.reverseRecOn with
  | nil => intro i hi; simp at hi
  | append_singleton ys y ih =>
    intro i hi
    obtain ⟨hend, hfull, hcap⟩ := insertAll_state C ms hC ys
    have hlen : (ys ++ [y]).length = ys.length + 1 := by simp
    rw [insertAll_append_singleton, hlen]
    rw [hlen] at hi
    set s := insertAll (FlightRecorder.new C ms) ys with hs
    have spair : ∀ k, slotPair (s.insert_c_api y.1 y.2) k =
        if k = ys.length % C then y else slotPair s k := by
      intro k
      unfold slotPair
      rw [insert_c_api_m_array, insert_c_api_m_buffer, hend]
      by_cases hk : k = ys.length % C
      · simp [hk]
      · simp [hk]
    have hcap' : (s.insert_c_api y.1 y.2).m_capacity = C := by
      rw [insert_c_api_m_capacity, hcap]
    have hend0 : (s.insert_c_api y.1 y.2).m_end =
        if ys.length % C + 1 = C then 0 else ys.length % C + 1 := by
      rw [insert_c_api_m_end, hend, hcap]
    have hfull0 : (s.insert_c_api y.1 y.2).m_is_full =
        if ys.length % C + 1 = C then true else decide (C ≤ ys.length) := by
      rw [insert_c_api_m_is_full, hend, hcap, hfull]
    rcases Nat.lt_or_ge ys.length C with hLC | hLC
    · -- the buffer was not yet full before this insertion
      have hmodL : ys.length % C = ys.length := Nat.mod_eq_of_lt hLC
      have hphys : (s.insert_c_api y.1 y.2).physicalIndex i = i := by
        unfold FlightRecorder.physicalIndex
        rw [hfull0, hend0, hcap', hmodL]
        by_cases hw : ys.length + 1 = C
        · have h1 : i < C := by omega
          simp [hw, h1]
        · have h2 : decide (C ≤ ys.length) = false := by
            simp only [decide_eq_false_iff_not]
            omega
          simp [hw, h2]
      rcases Nat.lt_or_ge i ys.length with hiL | hiL
      · -- an older entry, unchanged by the insertion
        rw [hphys, spair i, if_neg (by omega)]
        have hIH := ih i (by omega)
        have hphysS : s.physicalIndex i = i := by
          unfold FlightRecorder.physicalIndex
          have h2 : s.m_is_full = false := by
            rw [hfull]
            simp only [decide_eq_false_iff_not]
            omega
          rw [h2]
          simp
        rw [hphysS] at hIH
        have hidx : ys.length + 1 - min (ys.length + 1) C + i = i := by omega
        rw [hidx, getD_append_lt _ _ _ _ hiL]
        have hidx2 : ys.length - min ys.length C + i = i := by omega
        rw [hidx2] at hIH
        exact hIH
      · -- the entry just written
        have hieq : i = ys.length := by omega
        rw [hphys, spair i, if_pos (by omega)]
        have hidx : ys.length + 1 - min (ys.length + 1) C + i = ys.length := by omega
        rw [hidx, getD_snoc_length]
    · -- the buffer was already full: the oldest entry is overwritten
      have hE : ys.length % C < C := Nat.mod_lt _ hC
      have hiC : i < C := by omega
      have hfullS : s.m_is_full = true := by
        rw [hfull]
        simp [hLC]
      have hfull' : (s.insert_c_api y.1 y.2).m_is_full = true := by
        rw [hfull0]
        by_cases hw : ys.length % C + 1 = C <;> simp [hw, hLC]
      have hend' : (s.insert_c_api y.1 y.2).m_end = (ys.length % C + 1) % C := by
        rw [hend0]
        by_cases hw : ys.length % C + 1 = C
        · rw [if_pos hw, hw, Nat.mod_self]
        · rw [if_neg hw]
          exact (Nat.mod_eq_of_lt (show ys.length % C + 1 < C by omega)).symm
      have hphys : (s.insert_c_api y.1 y.2).physicalIndex i =
          (ys.length % C + 1 + i) % C := by
        rw [physicalIndex_full_mod _ i hfull'
          (by rw [hend', hcap']; exact Nat.mod_lt _ hC)
          (by rw [hcap']; omega), hend', hcap', Nat.mod_add_mod]
      have hES : s.m_end < s.m_capacity := by rw [hend, hcap]; exact hE
      by_cases hic : i + 1 = C
      · -- the newest logical position is the slot just written
        have hadd : ys.length % C + 1 + i = ys.length % C + C := by omega
        have hmodE : (ys.length % C + C) % C = ys.length % C := by
          rw [Nat.add_mod_right, Nat.mod_eq_of_lt hE]
        rw [hphys, hadd, hmodE, spair _, if_pos rfl]
        have hidx : ys.length + 1 - min (ys.length + 1) C + i = ys.length := by omega
        rw [hidx, getD_snoc_length]
      · -- an older logical position: it shifts down by one
        have hi1 : i + 1 < C := by omega
        have hpsi : s.physicalIndex (i + 1) = (ys.length % C + (i + 1)) % C := by
          rw [physicalIndex_full_mod s (i + 1) hfullS hES (by rw [hcap]; omega),
            hend, hcap]
        have hphys2 : (ys.length % C + 1 + i) % C = s.physicalIndex (i + 1) := by
          rw [hpsi]
          congr 1
          omega
        have hne : s.physicalIndex (i + 1) ≠ ys.length % C := by
          rw [hpsi]
          intro hcontra
          rcases Nat.lt_or_ge (ys.length % C + (i + 1)) C with h | h
          · rw [Nat.mod_eq_of_lt h] at hcontra
            omega
          · rw [Nat.mod_eq_sub_mod h, Nat.mod_eq_of_lt (by omega)] at hcontra
            omega
        rw [hphys, hphys2, spair _, if_neg hne]
        have hIH := ih (i + 1) (by omega)
        have hidx : ys.length + 1 - min (ys.length + 1) C + i =
            ys.length - min ys.length C + (i + 1) := by omega
        have hlt2 : ys.length - min ys.length C + (i + 1) < ys.length := by omega
        rw [hidx, getD_append_lt _ _ _ _ hlt2]
        exact hIH

/-- C6 (ring buffer capacity invariant): after `N` insertions into a fresh
buffer of capacity `C > 0`, `size()` equals `min N C`, the write cursor
stays in `[0, C)`, and `m_is_full` is set exactly when the cursor has
wrapped past `C`, i.e. when `N ≥ C`. -/
theorem size_min_insertions (C ms : Nat) (hC : 0 < C) (xs : List (Entry × String)) :
    (insertAll (FlightRecorder.new C ms) xs).size = min xs.length C ∧
    (insertAll (FlightRecorder.new C ms) xs).m_end < C ∧
    ((insertAll (FlightRecorder.new C ms) xs).m_is_full = true ↔ C ≤ xs.length) := by
  obtain ⟨hend, hfull, hcap⟩ := insertAll_state C ms hC xs
  refine ⟨?_, ?_, ?_⟩
  · unfold FlightRecorder.size
    rw [hend, hfull, hcap]
    by_cases hCL : C ≤ xs.length
    · rw [if_pos (by simpa using hCL)]
      omega
    · rw [if_neg (by simpa using hCL)]
      have heq : xs.length % C = xs.length := Nat.mod_eq_of_lt (by omega)
      omega
  · rw [hend]
    exact Nat.mod_lt _ hC
  · rw [hfull]
    simp

/-- Witness for `size_min_insertions`: capacity 2, three insertions. -/
theorem size_min_insertions_witness :
    0 < 2 ∧
    ((insertAll (FlightRecorder.new 2 8)
        [(⟨"a.c", 1, "f"⟩, "m1"), (⟨"a.c", 2, "f"⟩, "m2"), (⟨"a.c", 3, "g"⟩, "m3")]).size =
        min 3 2 ∧
      (insertAll (FlightRecorder.new 2 8)
        [(⟨"a.c", 1, "f"⟩, "m1"), (⟨"a.c", 2, "f"⟩, "m2"), (⟨"a.c", 3, "g"⟩, "m3")]).m_end < 2 ∧
      ((insertAll (FlightRecorder.new 2 8)
        [(⟨"a.c", 1, "f"⟩, "m1"), (⟨"a.c", 2, "f"⟩, "m2"), (⟨"a.c", 3, "g"⟩, "m3")]).m_is_full
          = true ↔ 2 ≤ 3)) :=
  ⟨by decide, size_min_insertions 2 8 (by decide)
    [(⟨"a.c", 1, "f"⟩, "m1"), (⟨"a.c", 2, "f"⟩, "m2"), (⟨"a.c", 3, "g"⟩, "m3")]⟩

theorem traverseOption_eq_some {α β : Type} (f : α → Option β) (g : α → β)
    (l : List α) (h : ∀ a ∈ l, f a = some (g a)) :
    traverseOption f l = some (l.map g) := by
  induction l with
  | nil => rfl
  | cons a t ihl =>
    have ha := h a (by simp)
    have ht := ihl fun b hb => h b (by simp [hb])
    simp [traverseOption, ha, ht]

/-- What `dump` prints on any reachable full buffer: with `L = C + k`
insertions (`k < C`), `dump m` succeeds and prints exactly
`num = min C m` lines, ordered oldest to newest; the `t`-th line carries
the countdown label `num - 1 - t` and the `(k + C - num + t)`-th insertion,
i.e. the lines are the newest `num` of the last `C` insertions, in
insertion order. -/
theorem dump_after_wrap (C ms m k : Nat) (xs : List (Entry × String))
    (hC : 0 < C) (hL : xs.length = C + k) (_hk : k < C) :
    ∃ lines,
      (insertAll (FlightRecorder.new C ms) xs).dump m = some lines ∧
      lines.length = min ((insertAll (FlightRecorder.new C ms) xs).size) m ∧
      lines = (List.range (min C m)).map fun t =>
        { j := min C m - 1 - t
          entry := (xs.getD (k + C - min C m + t) (default, "")).1
          message := (xs.getD (k + C - min C m + t) (default, "")).2 } := by
  obtain ⟨hsize, hendlt, hfulliff⟩ := size_min_insertions C ms hC xs
  have hmin : min xs.length C = C := by omega
  have hsizeC : (insertAll (FlightRecorder.new C ms) xs).size = C := by omega
  refine ⟨_, ?_, ?_, rfl⟩
  · unfold FlightRecorder.dump
    rw [hsizeC]
    apply traverseOption_eq_some
    intro t ht
    have htlt : t < min C m := by simpa using ht
    have hilt : C - min C m + t < (insertAll (FlightRecorder.new C ms) xs).size := by
      rw [hsizeC]; omega
    rw [to_array_index_eq_physical _ _ hilt]
    have hcontent := insertAll_content C ms hC xs (C - min C m + t)
      (by rw [hmin]; omega)
    have hpair : slotPair (insertAll (FlightRecorder.new C ms) xs)
        ((insertAll (FlightRecorder.new C ms) xs).physicalIndex (C - min C m + t)) =
        xs.getD (k + C - min C m + t) (default, "") := by
      rw [hcontent, hmin, hL]
      congr 1
      omega
    unfold slotPair at hpair
    rw [Prod.ext_iff] at hpair
    obtain ⟨h1, h2⟩ := hpair
    rw [Option.map_some']
    simp only [Option.some.injEq, DumpLine.mk.injEq]
    exact ⟨trivial, h1, h2⟩
  · rw [hsizeC, List.length_map, List.length_range]

/-- Concrete five-insertion sequence used by the dump example (capacity 3,
message size 16, as in the spec's log-capacity example). -/
def exampleInsertions : List (Entry × String) :=
  [(⟨"a.c", 1, "f"⟩, "m1"), (⟨"a.c", 2, "f"⟩, "m2"), (⟨"a.c", 3, "f"⟩, "m3"),
   (⟨"a.c", 4, "g"⟩, "m4"), (⟨"a.c", 5, "g"⟩, "m5")]

/-- Witness for `dump_after_wrap`: capacity 3, five insertions, bound 10 —
`dump` prints exactly three lines, the 3rd, 4th and 5th insertions, oldest
first. -/
theorem dump_after_wrap_witness :
    (0 < 3 ∧ exampleInsertions.length = 3 + 2 ∧ 2 < 3) ∧
    (∃ lines,
      (insertAll (FlightRecorder.new 3 16) exampleInsertions).dump 10 = some lines ∧
      lines.length = min ((insertAll (FlightRecorder.new 3 16) exampleInsertions).size) 10 ∧
      lines = (List.range (min 3 10)).map fun t =>
        { j := min 3 10 - 1 - t
          entry := (exampleInsertions.getD (2 + 3 - min 3 10 + t) (default, "")).1
          message := (exampleInsertions.getD (2 + 3 - min 3 10 + t) (default, "")).2 }) :=
  ⟨⟨by decide, by decide, by decide⟩,
    dump_after_wrap 3 16 10 2 exampleInsertions (by decide) (by decide) (by decide)⟩

/-- Counterexample to C5 as stated: with capacity `C = 2`, two insertions
(`k = 0`) and bound `m = 1`, `dump` prints a single line — the newest entry
only — so the printed entries are not "exactly the last `C` insertions in
insertion order" (which would be both). -/
theorem dump_small_bound_cex :
    ((insertAll (FlightRecorder.new 2 16)
          [(⟨"a.c", 1, "f"⟩, "m1"), (⟨"a.c", 2, "f"⟩, "m2")]).dump 1).map
        (List.map fun l => (l.entry, l.message)) ≠
      some [((⟨"a.c", 1, "f"⟩ : Entry), "m1"), ((⟨"a.c", 2, "f"⟩ : Entry), "m2")] := by
  decide

end FlightRec

namespace GCTrace

/-- `Object::ReferenceType`: the kind of connection from parent to child. -/
inductive ReferenceType
  | UNKNOWN
  | ROOT
  | MODULE_BINDING
  | TASK
  | FRAME
  | ARRAY
  | FIELD
deriving DecidableEq, Repr

/-- One `Object` of the reachability index.  Julia pointers (`jl_value_t*`,
and the `jl_module_t*` / `jl_task_t*` / `jl_gcframe_t*` pointers that
`gc-tracing.cpp` casts to `jl_value_t*` as map keys) are modelled as `Nat`
identities, with `0` standing for the null pointer.  The C++ `m_parent` is
an `Object*` into `g_index`; here it is the parent's identity key (parents
are only set to keys present in the index, mirroring the pointer into the
map). -/
structure Object where
  m_pointer : Nat
  m_parent : Option Nat
  m_type_ref : ReferenceType
  m_name : String
  m_index : Nat
deriving DecidableEq, Repr

/-- The `Object(jl_value_t*)` constructor: unknown kind, no parent, empty
name, index 0. -/
def Object.init (p : Nat) : Object :=
  { m_pointer := p, m_parent := none, m_type_ref := .UNKNOWN, m_name := "", m_index := 0 }

/-- Lookup in `g_index` (`std::unordered_map::find`), modelled on an
association list. -/
def lookupIndex : List (Nat × Object) → Nat → Option Object
  | [], _ => none
  | (a, v) :: rest, k => if a = k then some v else lookupIndex rest k

/-- Observable console/debugger effects of the tracing code, in program
order. -/
inductive Event
  | frDumpN (n : Nat)
  | cannotFindParent (p : Nat)
  | debuggerTrap
  | targetFound (p : Nat)
  | ancestorChainDump (p : Nat)
  | checkingTarget (p : Nat)
  | noTargetsToTrace
  | targetNotDetected (p : Nat)
  | allTargetsDetected
deriving DecidableEq, Repr

/-- The process-wide state of `gc-tracing.cpp` together with the flight
recorder's enable flag and (abstracted) message log: `g_targets` (an
`unordered_set`, modelled as a duplicate-free list), `g_recording`,
`g_index`, `g_flight_recorder_enabled` with the messages recorded through
the `FR` macro, and the stream of observable events. -/
structure TraceState where
  g_targets : List Nat
  g_recording : Bool
  g_index : List (Nat × Object)
  g_flight_recorder_enabled : Bool
  fr_log : List String
  events : List Event
deriving DecidableEq, Repr

/-- The `FR(...)` macro of `flight-recorder.h`: when the flight recorder is
enabled, append the formatted message to the log; otherwise do nothing. -/
def FR (st : TraceState) (msg : String) : TraceState :=
  if st.g_flight_recorder_enabled then { st with fr_log := st.fr_log ++ [msg] } else st

/-- The events of the `STOP_AND_DEBUG` macro: dump up to 128 recent log
entries, print the cannot-find-parent error for `this->m_pointer`, and
break into the debugger (SIGTRAP). -/
def stopAndDebugEvents (p : Nat) : List Event :=
  [.frDumpN 128, .cannotFindParent p, .debuggerTrap]

/-- `Object::set_root`. -/
def Object.set_root (obj : Object) (name : String) : Object :=
  { obj with m_type_ref := .ROOT, m_parent := none, m_name := name }

/-- `Object::set_parent(jl_module_t*, const char*)`: module-binding edge.
On a failed parent lookup `m_parent` stays untouched and `STOP_AND_DEBUG`
fires. -/
def Object.set_parent_module (obj : Object) (index : List (Nat × Object))
    (module : Nat) (name : String) : Object × List Event :=
  let obj := { obj with m_type_ref := .MODULE_BINDING, m_name := name }
  match lookupIndex index module with
  | none => (obj, stopAndDebugEvents obj.m_pointer)
  | some _ => ({ obj with m_parent := some module }, [])

/-- `Object::set_parent(jl_task_t*)`: task-to-frame edge. -/
def Object.set_parent_task (obj : Object) (index : List (Nat × Object))
    (task : Nat) : Object × List Event :=
  let obj := { obj with m_type_ref := .TASK }
  match lookupIndex index task with
  | none => (obj, stopAndDebugEvents obj.m_pointer)
  | some _ => ({ obj with m_parent := some task }, [])

/-- `Object::set_parent(jl_gcframe_t*)`: frame edge. -/
def Object.set_parent_frame (obj : Object) (index : List (Nat × Object))
    (frame : Nat) : Object × List Event :=
  let obj := { obj with m_type_ref := .FRAME }
  match lookupIndex index frame with
  | none => (obj, stopAndDebugEvents obj.m_pointer)
  | some _ => ({ obj with m_parent := some frame }, [])

/-- `Object::set_parent(jl_value_t*, uint64_t)`: array edge; `m_index` is
assigned after the lookup on both paths. -/
def Object.set_parent_array (obj : Object) (index : List (Nat × Object))
    (array : Nat) (idx : Nat) : Object × List Event :=
  let obj := { obj with m_type_ref := .ARRAY }
  match lookupIndex index array with
  | none => ({ obj with m_index := idx }, stopAndDebugEvents obj.m_pointer)
  | some _ => ({ obj with m_parent := some array, m_index := idx }, [])

/-- `Object::set_parent(jl_value_t*, uint64_t, const string&)`: field edge;
`m_index` and `m_name` are assigned after the lookup on both paths. -/
def Object.set_parent_field (obj : Object) (index : List (Nat × Object))
    (object : Nat) (field_index : Nat) (field_name : String) : Object × List Event :=
  let obj := { obj with m_type_ref := .FIELD }
  match lookupIndex index object with
  | none =>
    ({ obj with m_index := field_index, m_name := field_name },
      stopAndDebugEvents obj.m_pointer)
  | some _ =>
    ({ obj with m_parent := some object, m_index := field_index, m_name := field_name },
      [])

/-- `target_found`: if the candidate is being watched, print its
description, dump its ancestor chain, and erase it from `g_targets`. -/
def target_found (st : TraceState) (candidate : Nat) : TraceState :=
  if candidate ∈ st.g_targets then
    { st with
        events := st.events ++ [.targetFound candidate, .ancestorChainDump candidate],
        g_targets := st.g_targets.erase candidate }
  else st

/-- `gc_record_root`: log, bail out when not recording or the root pointer
is null, emplace the node (no-op when the identity already exists), mark it
as a root and check the watch set. -/
def gc_record_root (st : TraceState) (root : Nat) (name : String) : TraceState :=
  let st := FR st "root"
  if !st.g_recording || root == 0 then st
  else if (lookupIndex st.g_index root).isSome then st
  else
    let st := FR st "root inserted"
    let obj := (Object.init root).set_root name
    let st := { st with g_index := (root, obj) :: st.g_index }
    target_found st root

/-- `gc_record_frame_to_object_edge`: emplace the target node, resolve the
parent frame (the freshly emplaced node is already in the map during the
lookup, as in the C++), and check the watch set. -/
def gc_record_frame_to_object_edge (st : TraceState) (frm toPtr : Nat) : TraceState :=
  let st := FR st "from, to"
  if !st.g_recording then st
  else if (lookupIndex st.g_index toPtr).isSome then st
  else
    let st := FR st "item inserted"
    let pr := (Object.init toPtr).set_parent_frame ((toPtr, Object.init toPtr) :: st.g_index) frm
    let st := { st with g_index := (toPtr, pr.1) :: st.g_index, events := st.events ++ pr.2 }
    target_found st toPtr

/-- `gc_record_task_to_frame_edge`: emplace the frame node and resolve the
parent task; unlike the object/array/module/field edges, it does not call
`target_found`. -/
def gc_record_task_to_frame_edge (st : TraceState) (frm toPtr : Nat) : TraceState :=
  let st := FR st "task, frame"
  if !st.g_recording then st
  else if (lookupIndex st.g_index toPtr).isSome then st
  else
    let st := FR st "item inserted"
    let pr := (Object.init toPtr).set_parent_task ((toPtr, Object.init toPtr) :: st.g_index) frm
    { st with g_index := (toPtr, pr.1) :: st.g_index, events := st.events ++ pr.2 }

/-- `gc_record_frame_to_frame_edge`: emplace the frame node and resolve the
parent frame; it does not call `target_found` either. -/
def gc_record_frame_to_frame_edge (st : TraceState) (frm toPtr : Nat) : TraceState :=
  let st := FR st "from, to"
  if !st.g_recording then st
  else if (lookupIndex st.g_index toPtr).isSome then st
  else
    let st := FR st "item inserted"
    let pr := (Object.init toPtr).set_parent_frame ((toPtr, Object.init toPtr) :: st.g_index) frm
    { st with g_index := (toPtr, pr.1) :: st.g_index, events := st.events ++ pr.2 }

/-- `gc_record_array_edge`. -/
def gc_record_array_edge (st : TraceState) (frm toPtr idx : Nat) : TraceState :=
  let st := FR st "from, to, index"
  if !st.g_recording then st
  else if (lookupIndex st.g_index toPtr).isSome then st
  else
    let st := FR st "item inserted"
    let pr := (Object.init toPtr).set_parent_array ((toPtr, Object.init toPtr) :: st.g_index) frm idx
    let st := { st with g_index := (toPtr, pr.1) :: st.g_index, events := st.events ++ pr.2 }
    target_found st toPtr

/-- `gc_record_module_edge`. -/
def gc_record_module_edge (st : TraceState) (frm toPtr : Nat) (name : String) : TraceState :=
  let st := FR st "module, value, name"
  if !st.g_recording then st
  else if (lookupIndex st.g_index toPtr).isSome then st
  else
    let st := FR st "item inserted"
    let pr := (Object.init toPtr).set_parent_module ((toPtr, Object.init toPtr) :: st.g_index) frm name
    let st := { st with g_index := (toPtr, pr.1) :: st.g_index, events := st.events ++ pr.2 }
    target_found st toPtr

/-- `gc_record_module_edge_globalref`: suffix the binding name and delegate
to `gc_record_module_edge`. -/
def gc_record_module_edge_globalref (st : TraceState) (frm toPtr : Nat)
    (name : String) : TraceState :=
  if !st.g_recording || toPtr == 0 then st
  else gc_record_module_edge st frm toPtr (name ++ "_globalref")

/-- `gc_record_object_edge`.  The resolution of the raw `slot` pointer to a
field index and a dotted field name walks host type-layout metadata
(`jl_datatype_nfields`, `jl_field_offset`, `jl_field_names`, ...), which
lives outside this repository's data model (the spec's external
FieldResolver capability); the resolved `field_index0` / `field_name` are
taken as inputs here.  The layout-mismatch debug path (`error == true`)
prints extensive diagnostics and breaks into the debugger before
continuing; it is represented by the `layout_error` flag. -/
def gc_record_object_edge (st : TraceState) (frm toPtr : Nat)
    (field_index0 : Nat) (field_name : String) (layout_error : Bool) : TraceState :=
  let st := FR st "from, to, slot"
  if !st.g_recording then st
  else if (lookupIndex st.g_index toPtr).isSome then st
  else
    let st := FR st "item inserted"
    let st := if layout_error then { st with events := st.events ++ [.debuggerTrap] } else st
    let pr := (Object.init toPtr).set_parent_field ((toPtr, Object.init toPtr) :: st.g_index)
      frm field_index0 field_name
    let st := { st with g_index := (toPtr, pr.1) :: st.g_index, events := st.events ++ pr.2 }
    target_found st toPtr

/-- `gc_record_internal_edge`: log only, no graph effect. -/
def gc_record_internal_edge (st : TraceState) (_frm _toPtr : Nat) : TraceState :=
  let st := FR st "from, to"
  st

/-- `gc_record_hidden_edge`: log only, no graph effect. -/
def gc_record_hidden_edge (st : TraceState) (_frm : Nat) (_bytes : Nat) : TraceState :=
  let st := FR st "from, bytes"
  st

/-- One callback invocation made by the host collector during its
traversal. -/
inductive TraceOp
  | root (r : Nat) (name : String)
  | frameToObject (frm toPtr : Nat)
  | taskToFrame (frm toPtr : Nat)
  | frameToFrame (frm toPtr : Nat)
  | arrayEdge (frm toPtr idx : Nat)
  | moduleEdge (frm toPtr : Nat) (name : String)
  | moduleEdgeGlobalref (frm toPtr : Nat) (name : String)
  | objectEdge (frm toPtr fieldIndex : Nat) (fieldName : String) (layoutError : Bool)
  | internalEdge (frm toPtr : Nat)
  | hiddenEdge (frm : Nat) (bytes : Nat)
deriving DecidableEq, Repr

/-- Dispatch of one callback. -/
def applyOp (st : TraceState) : TraceOp → TraceState
  | .root r name => gc_record_root st r name
  | .frameToObject frm toPtr => gc_record_frame_to_object_edge st frm toPtr
  | .taskToFrame frm toPtr => gc_record_task_to_frame_edge st frm toPtr
  | .frameToFrame frm toPtr => gc_record_frame_to_frame_edge st frm toPtr
  | .arrayEdge frm toPtr idx => gc_record_array_edge st frm toPtr idx
  | .moduleEdge frm toPtr name => gc_record_module_edge st frm toPtr name
  | .moduleEdgeGlobalref frm toPtr name => gc_record_module_edge_globalref st frm toPtr name
  | .objectEdge frm toPtr fi fn le => gc_record_object_edge st frm toPtr fi fn le
  | .internalEdge frm toPtr => gc_record_internal_edge st frm toPtr
  | .hiddenEdge frm bytes => gc_record_hidden_edge st frm bytes

/-- A whole collector run: the sequence of callbacks it makes, in
discovery order. -/
def runOps (st : TraceState) (ops : List TraceOp) : TraceState :=
  ops.foldl applyOp st

/-- `jl_gc_trace` (the session driver).  The two external collector
invocations — the warm-up `jl_gc_collect(JL_GC_AUTO)` loop before
recording starts and the full `jl_gc_collect(JL_GC_FULL)` collection — are
calls into the host GC, which reports edges back through the callbacks
above; they are modelled by the callback sequences `warmup` and
`collection`. -/
def jl_gc_trace (st : TraceState) (warmup collection : List TraceOp) : TraceState :=
  if st.g_targets.isEmpty then
    { st with events := st.events ++ [.noTargetsToTrace] }
  else
    let st := { st with events := st.events ++ st.g_targets.map Event.checkingTarget }
    let st := { st with g_index := [] }
    let st := runOps st warmup
    let st := { st with g_recording := true, g_flight_recorder_enabled := true }
    let st := runOps st collection
    let report : List Event :=
      if st.g_targets.isEmpty then [Event.allTargetsDetected]
      else st.g_targets.map Event.targetNotDetected
    let st := { st with events := st.events ++ report }
    { st with g_targets := [], g_index := [], g_recording := false, g_flight_recorder_enabled := false }

/-- What `dump_ancestor_chain` prints before the arrow of one line: the
root marker, the unknown marker, or the parent's pointer (the type
description printed next to it comes from `jl_typeof`, host metadata). -/
inductive ParentDesc
  | root
  | unknown
  | ptr (p : Nat)
deriving DecidableEq, Repr

/-- One line printed by `Object::dump_ancestor_chain`: the parent
description, the optional label (`m_name` when non-empty), the optional
position (`m_index` for ARRAY and FIELD kinds) and the current node's
pointer. -/
structure ChainLine where
  parent_desc : ParentDesc
  label : Option String
  position : Option Nat
  pointer : Nat
deriving DecidableEq, Repr

/-- The line printed for one node in the chain walk. -/
def mkChainLine (obj : Object) : ChainLine :=
  { parent_desc :=
      if obj.m_type_ref = .ROOT then .root
      else match obj.m_parent with
        | none => .unknown
        | some p => .ptr p
    label := if obj.m_name = "" then none else some obj.m_name
    position :=
      if obj.m_type_ref = .ARRAY ∨ obj.m_type_ref = .FIELD then some obj.m_index
      else none
    pointer := obj.m_pointer }

/-- `Object::dump_ancestor_chain`, fuel-indexed because the C++ do-while
loop has no termination guard other than reaching a Root node (which
forces `parent = nullptr` even when `m_parent` is set, tolerating
self-loops) or a null parent.  `none` means the fuel ran out — the C++
loop is still running — or that a parent key is missing from the index,
which cannot happen in the C++ where `m_parent` is a live `Object*` into
`g_index`. -/
def dump_ancestor_chain (index : List (Nat × Object)) : Object → Nat → Option (List ChainLine)
  | _, 0 => none
  | obj, fuel + 1 =>
    let parent := if obj.m_type_ref = .ROOT then none else obj.m_parent
    match parent with
    | none => some [mkChainLine obj]
    | some p =>
      match lookupIndex index p with
      | none => none
      | some pobj => (dump_ancestor_chain index pobj fuel).map (mkChainLine obj :: ·)

/-- A node's parent chain eventually reaches a Root node or a node with no
parent (every intermediate parent reference resolving in the index). -/
inductive ChainEnds (index : List (Nat × Object)) : Object → Prop
  | root (obj : Object) : obj.m_type_ref = .ROOT → ChainEnds index obj
  | noParent (obj : Object) : obj.m_parent = none → ChainEnds index obj
  | step (obj : Object) (p : Nat) (pobj : Object) :
      obj.m_parent = some p → lookupIndex index p = some pobj →
      ChainEnds index pobj → ChainEnds index obj

/-- C8 (chain reconstruction terminates): for every node whose parent
chain eventually reaches a Root node or a node with parent none, the chain
walk succeeds with some finite fuel; moreover a Root node ends the walk
immediately — fuel 1 suffices — even when its parent reference is set. -/
theorem dump_ancestor_chain_terminates (index : List (Nat × Object)) (obj : Object)
    (h : ChainEnds index obj) :
    (∃ fuel lines, dump_ancestor_chain index obj fuel = some lines) ∧
    (obj.m_type_ref = .ROOT →
      dump_ancestor_chain index obj 1 = some [mkChainLine obj]) := by
  constructor
  · induction h with
    | root obj hr =>
      refine ⟨1, [mkChainLine obj], ?_⟩
      unfold dump_ancestor_chain
      rw [if_pos hr]
    | noParent obj hp =>
      refine ⟨1, [mkChainLine obj], ?_⟩
      unfold dump_ancestor_chain
      by_cases hr : obj.m_type_ref = .ROOT
      · rw [if_pos hr]
      · rw [if_neg hr, hp]
    | step obj p pobj hp hl _hch ih =>
      by_cases hr : obj.m_type_ref = .ROOT
      · refine ⟨1, [mkChainLine obj], ?_⟩
        unfold dump_ancestor_chain
        rw [if_pos hr]
      · obtain ⟨fuel, lines, hf⟩ := ih
        refine ⟨fuel + 1, mkChainLine obj :: lines, ?_⟩
        unfold dump_ancestor_chain
        rw [if_neg hr, hp]
        simp only [hl, hf, Option.map_some']
  · intro hr
    unfold dump_ancestor_chain
    rw [if_pos hr]

/-- Witness for `dump_ancestor_chain_terminates`: a two-node index in
which the root's own parent reference points back down at its child (an
accidental cycle), yet the walk from the child terminates because the Root
kind ends it. -/
theorem dump_ancestor_chain_terminates_witness :
    ChainEnds [(1, ⟨1, some 2, ReferenceType.ROOT, "main", 0⟩),
        (2, ⟨2, some 1, ReferenceType.FIELD, "f", 0⟩)]
      ⟨2, some 1, ReferenceType.FIELD, "f", 0⟩ ∧
    ((∃ fuel lines, dump_ancestor_chain
        [(1, ⟨1, some 2, ReferenceType.ROOT, "main", 0⟩),
         (2, ⟨2, some 1, ReferenceType.FIELD, "f", 0⟩)]
        ⟨2, some 1, ReferenceType.FIELD, "f", 0⟩ fuel = some lines) ∧
      ((⟨2, some 1, ReferenceType.FIELD, "f", 0⟩ : Object).m_type_ref = .ROOT →
        dump_ancestor_chain
          [(1, ⟨1, some 2, ReferenceType.ROOT, "main", 0⟩),
           (2, ⟨2, some 1, ReferenceType.FIELD, "f", 0⟩)]
          ⟨2, some 1, ReferenceType.FIELD, "f", 0⟩ 1 =
          some [mkChainLine ⟨2, some 1, ReferenceType.FIELD, "f", 0⟩])) := by
  have hch : ChainEnds [(1, ⟨1, some 2, ReferenceType.ROOT, "main", 0⟩),
      (2, ⟨2, some 1, ReferenceType.FIELD, "f", 0⟩)]
      ⟨2, some 1, ReferenceType.FIELD, "f", 0⟩ :=
    ChainEnds.step _ 1 ⟨1, some 2, ReferenceType.ROOT, "main", 0⟩ rfl (by decide)
      (ChainEnds.root _ rfl)
  exact ⟨hch, dump_ancestor_chain_terminates _ _ hch⟩

-- Component lemmas: `FR` only touches the message log, `target_found`
-- only the watch set and the event stream.

theorem FR_g_recording (st : TraceState) (msg : String) :
    (FR st msg).g_recording = st.g_recording := by
  unfold FR
  split <;> rfl

theorem FR_g_index (st : TraceState) (msg : String) :
    (FR st msg).g_index = st.g_index := by
  unfold FR
  split <;> rfl

theorem FR_g_targets (st : TraceState) (msg : String) :
    (FR st msg).g_targets = st.g_targets := by
  unfold FR
  split <;> rfl

theorem FR_events (st : TraceState) (msg : String) :
    (FR st msg).events = st.events := by
  unfold FR
  split <;> rfl

theorem FR_fr_enabled (st : TraceState) (msg : String) :
    (FR st msg).g_flight_recorder_enabled = st.g_flight_recorder_enabled := by
  unfold FR
  split <;> rfl

theorem target_found_g_index (st : TraceState) (c : Nat) :
    (target_found st c).g_index = st.g_index := by
  unfold target_found
  split <;> rfl

theorem target_found_g_recording (st : TraceState) (c : Nat) :
    (target_found st c).g_recording = st.g_recording := by
  unfold target_found
  split <;> rfl

theorem target_found_fr_enabled (st : TraceState) (c : Nat) :
    (target_found st c).g_flight_recorder_enabled = st.g_flight_recorder_enabled := by
  unfold target_found
  split <;> rfl

/-- No callback ever touches the recording flag or the flight-recorder
enable flag. -/
theorem applyOp_flags (st : TraceState) (op : TraceOp) :
    (applyOp st op).g_recording = st.g_recording ∧
    (applyOp st op).g_flight_recorder_enabled = st.g_flight_recorder_enabled := by
  cases op <;>
    (refine ⟨?_, ?_⟩ <;>
      (simp only [applyOp, gc_record_root, gc_record_frame_to_object_edge,
        gc_record_task_to_frame_edge, gc_record_frame_to_frame_edge, gc_record_array_edge,
        gc_record_module_edge, gc_record_module_edge_globalref, gc_record_object_edge,
        gc_record_internal_edge, gc_record_hidden_edge]
       repeat' split
       all_goals simp only [target_found_g_recording, target_found_fr_enabled,
         FR_g_recording, FR_fr_enabled]))

/-- When no session is recording, a callback leaves the reachability index
and the watch set untouched (shared helper behind C7 and C10). -/
theorem applyOp_not_recording (st : TraceState) (op : TraceOp)
    (h : st.g_recording = false) :
    (applyOp st op).g_index = st.g_index ∧
    (applyOp st op).g_targets = st.g_targets ∧
    (applyOp st op).events = st.events := by
  cases op <;>
    simp [applyOp, gc_record_root, gc_record_frame_to_object_edge,
      gc_record_task_to_frame_edge, gc_record_frame_to_frame_edge,
      gc_record_array_edge, gc_record_module_edge, gc_record_module_edge_globalref,
      gc_record_object_edge, gc_record_internal_edge, gc_record_hidden_edge,
      FR_g_recording, FR_g_index, FR_g_targets, FR_events, h]

/-- `runOps` with recording off: index, watch set and events unchanged,
flags unchanged. -/
theorem runOps_not_recording (ops : List TraceOp) (st : TraceState)
    (h : st.g_recording = false) :
    (runOps st ops).g_index = st.g_index ∧
    (runOps st ops).g_targets = st.g_targets ∧
    (runOps st ops).events = st.events ∧
    (runOps st ops).g_recording = false ∧
    (runOps st ops).g_flight_recorder_enabled = st.g_flight_recorder_enabled := by
  induction ops generalizing st with
  | nil => exact ⟨rfl, rfl, rfl, h, rfl⟩
  | cons op rest ih =>
    have h1 := applyOp_not_recording st op h
    have h2 := applyOp_flags st op
    have h3 := ih (applyOp st op) (by rw [h2.1, h])
    refine ⟨?_, ?_, ?_, h3.2.2.2.1, ?_⟩
    · rw [show runOps st (op :: rest) = runOps (applyOp st op) rest from rfl,
        h3.1, h1.1]
    · rw [show runOps st (op :: rest) = runOps (applyOp st op) rest from rfl,
        h3.2.1, h1.2.1]
    · rw [show runOps st (op :: rest) = runOps (applyOp st op) rest from rfl,
        h3.2.2.1, h1.2.2]
    · rw [show runOps st (op :: rest) = runOps (applyOp st op) rest from rfl,
        h3.2.2.2.2, h2.2]

/-- The `to`-identity a callback emplaces, when it has one. -/
def opTo : TraceOp → Option Nat
  | .root r _ => some r
  | .frameToObject _ t => some t
  | .taskToFrame _ t => some t
  | .frameToFrame _ t => some t
  | .arrayEdge _ t _ => some t
  | .moduleEdge _ t _ => some t
  | .moduleEdgeGlobalref _ t _ => some t
  | .objectEdge _ t _ _ _ => some t
  | .internalEdge _ _ => none
  | .hiddenEdge _ _ => none

/-- C9 (null root is a no-op): `gc_record_root` with a null identity
neither creates a node nor touches the watch set, and produces no
observable event — the null check precedes the insertion. -/
theorem record_root_null_noop (st : TraceState) (name : String) :
    (gc_record_root st 0 name).g_index = st.g_index ∧
    (gc_record_root st 0 name).g_targets = st.g_targets ∧
    (gc_record_root st 0 name).events = st.events := by
  simp [gc_record_root, FR_g_index, FR_g_targets, FR_events]

/-- C10 (recording flag gates everything): when no session is recording,
every edge-report callback leaves the reachability index and the watch set
unchanged. -/
theorem callbacks_noop_when_not_recording (st : TraceState) (op : TraceOp)
    (h : st.g_recording = false) :
    (applyOp st op).g_index = st.g_index ∧
    (applyOp st op).g_targets = st.g_targets :=
  ⟨(applyOp_not_recording st op h).1, (applyOp_not_recording st op h).2.1⟩

/-- Witness for `callbacks_noop_when_not_recording`: a module edge
reported while idle. -/
theorem callbacks_noop_when_not_recording_witness :
    (TraceState.mk [5] false [] true [] []).g_recording = false ∧
    ((applyOp (TraceState.mk [5] false [] true [] [])
        (TraceOp.moduleEdge 1 5 "x")).g_index =
        (TraceState.mk [5] false [] true [] []).g_index ∧
      (applyOp (TraceState.mk [5] false [] true [] [])
        (TraceOp.moduleEdge 1 5 "x")).g_targets =
        (TraceState.mk [5] false [] true [] []).g_targets) :=
  ⟨rfl, callbacks_noop_when_not_recording _ _ rfl⟩

/-- A `record*` call whose `to`-identity is already indexed is a no-op on
the index, the watch set and the event stream (shared helper for the
first-discovery-wins and one-shot-reporting theorems). -/
theorem applyOp_present_noop (st : TraceState) (op : TraceOp) (t : Nat)
    (hop : opTo op = some t) (hpresent : (lookupIndex st.g_index t).isSome) :
    (applyOp st op).g_index = st.g_index ∧
    (applyOp st op).g_targets = st.g_targets ∧
    (applyOp st op).events = st.events := by
  have main : (applyOp st op).g_index = st.g_index ∧
      (applyOp st op).g_targets = st.g_targets ∧
      (applyOp st op).events = st.events := by
    cases op with
    | root r name =>
      obtain rfl : r = t := by simpa [opTo] using hop
      simp only [applyOp, gc_record_root]
      split
      · exact ⟨FR_g_index _ _, FR_g_targets _ _, FR_events _ _⟩
      · split
        · exact ⟨FR_g_index _ _, FR_g_targets _ _, FR_events _ _⟩
        · rename_i hc
          rw [FR_g_index] at hc
          exact absurd hpresent hc
    | frameToObject frm r =>
      obtain rfl : r = t := by simpa [opTo] using hop
      simp only [applyOp, gc_record_frame_to_object_edge]
      split
      · exact ⟨FR_g_index _ _, FR_g_targets _ _, FR_events _ _⟩
      · split
        · exact ⟨FR_g_index _ _, FR_g_targets _ _, FR_events _ _⟩
        · rename_i hc
          rw [FR_g_index] at hc
          exact absurd hpresent hc
    | taskToFrame frm r =>
      obtain rfl : r = t := by simpa [opTo] using hop
      simp only [applyOp, gc_record_task_to_frame_edge]
      split
      · exact ⟨FR_g_index _ _, FR_g_targets _ _, FR_events _ _⟩
      · split
        · exact ⟨FR_g_index _ _, FR_g_targets _ _, FR_events _ _⟩
        · rename_i hc
          rw [FR_g_index] at hc
          exact absurd hpresent hc
    | frameToFrame frm r =>
      obtain rfl : r = t := by simpa [opTo] using hop
      simp only [applyOp, gc_record_frame_to_frame_edge]
      split
      · exact ⟨FR_g_index _ _, FR_g_targets _ _, FR_events _ _⟩
      · split
        · exact ⟨FR_g_index _ _, FR_g_targets _ _, FR_events _ _⟩
        · rename_i hc
          rw [FR_g_index] at hc
          exact absurd hpresent hc
    | arrayEdge frm r idx =>
      obtain rfl : r = t := by simpa [opTo] using hop
      simp only [applyOp, gc_record_array_edge]
      split
      · exact ⟨FR_g_index _ _, FR_g_targets _ _, FR_events _ _⟩
      · split
        · exact ⟨FR_g_index _ _, FR_g_targets _ _, FR_events _ _⟩
        · rename_i hc
          rw [FR_g_index] at hc
          exact absurd hpresent hc
    | moduleEdge frm r name =>
      obtain rfl : r = t := by simpa [opTo] using hop
      simp only [applyOp, gc_record_module_edge]
      split
      · exact ⟨FR_g_index _ _, FR_g_targets _ _, FR_events _ _⟩
      · split
        · exact ⟨FR_g_index _ _, FR_g_targets _ _, FR_events _ _⟩
        · rename_i hc
          rw [FR_g_index] at hc
          exact absurd hpresent hc
    | moduleEdgeGlobalref frm r name =>
      obtain rfl : r = t := by simpa [opTo] using hop
      simp only [applyOp, gc_record_module_edge_globalref]
      split
      · exact ⟨rfl, rfl, rfl⟩
      · simp only [gc_record_module_edge]
        split
        · exact ⟨FR_g_index _ _, FR_g_targets _ _, FR_events _ _⟩
        · split
          · exact ⟨FR_g_index _ _, FR_g_targets _ _, FR_events _ _⟩
          · rename_i hc
            rw [FR_g_index] at hc
            exact absurd hpresent hc
    | objectEdge frm r fi fn le =>
      obtain rfl : r = t := by simpa [opTo] using hop
      simp only [applyOp, gc_record_object_edge]
      split
      · exact ⟨FR_g_index _ _, FR_g_targets _ _, FR_events _ _⟩
      · split
        · exact ⟨FR_g_index _ _, FR_g_targets _ _, FR_events _ _⟩
        · rename_i hc
          rw [FR_g_index] at hc
          exact absurd hpresent hc
    | internalEdge frm r => simp [opTo] at hop
    | hiddenEdge frm bytes => simp [opTo] at hop
  exact main

/-- C3 (first-discovery-wins): a `record*` call whose `to`-identity is
already indexed is a no-op — the index, the watch set and the event stream
are untouched, so the node's kind, label, position and parent still come
from the first report; in particular an identity first recorded as Root
keeps kind Root. -/
theorem first_discovery_wins (st : TraceState) (op : TraceOp) (t : Nat)
    (hop : opTo op = some t) (hpresent : (lookupIndex st.g_index t).isSome) :
    (applyOp st op).g_index = st.g_index ∧
    (applyOp st op).g_targets = st.g_targets ∧
    (applyOp st op).events = st.events ∧
    (∀ obj, lookupIndex st.g_index t = some obj →
      lookupIndex (applyOp st op).g_index t = some obj) ∧
    (∀ obj, lookupIndex st.g_index t = some obj → obj.m_type_ref = .ROOT →
      (lookupIndex (applyOp st op).g_index t).map Object.m_type_ref =
        some .ROOT) := by
  have main := applyOp_present_noop st op t hop hpresent
  refine ⟨main.1, main.2.1, main.2.2, ?_, ?_⟩
  · intro obj hobj
    rw [main.1]
    exact hobj
  · intro obj hobj hroot
    rw [main.1, hobj, Option.map_some', hroot]

/-- Witness for `first_discovery_wins`: the identity 5 is already indexed
as a Root; a later module edge to 5 changes nothing. -/
theorem first_discovery_wins_witness :
    (opTo (TraceOp.moduleEdge 1 5 "x") = some 5 ∧
      (lookupIndex (TraceState.mk [] true
          [(5, ⟨5, none, ReferenceType.ROOT, "main", 0⟩)] true [] []).g_index 5).isSome) ∧
    ((applyOp (TraceState.mk [] true
        [(5, ⟨5, none, ReferenceType.ROOT, "main", 0⟩)] true [] [])
        (TraceOp.moduleEdge 1 5 "x")).g_index =
      (TraceState.mk [] true
        [(5, ⟨5, none, ReferenceType.ROOT, "main", 0⟩)] true [] []).g_index ∧
      (applyOp (TraceState.mk [] true
        [(5, ⟨5, none, ReferenceType.ROOT, "main", 0⟩)] true [] [])
        (TraceOp.moduleEdge 1 5 "x")).g_targets =
      (TraceState.mk [] true
        [(5, ⟨5, none, ReferenceType.ROOT, "main", 0⟩)] true [] []).g_targets ∧
      (applyOp (TraceState.mk [] true
        [(5, ⟨5, none, ReferenceType.ROOT, "main", 0⟩)] true [] [])
        (TraceOp.moduleEdge 1 5 "x")).events =
      (TraceState.mk [] true
        [(5, ⟨5, none, ReferenceType.ROOT, "main", 0⟩)] true [] []).events ∧
      (∀ obj, lookupIndex (TraceState.mk [] true
          [(5, ⟨5, none, ReferenceType.ROOT, "main", 0⟩)] true [] []).g_index 5 =
            some obj →
        lookupIndex (applyOp (TraceState.mk [] true
          [(5, ⟨5, none, ReferenceType.ROOT, "main", 0⟩)] true [] [])
          (TraceOp.moduleEdge 1 5 "x")).g_index 5 = some obj) ∧
      (∀ obj, lookupIndex (TraceState.mk [] true
          [(5, ⟨5, none, ReferenceType.ROOT, "main", 0⟩)] true [] []).g_index 5 =
            some obj →
        obj.m_type_ref = .ROOT →
        (lookupIndex (applyOp (TraceState.mk [] true
          [(5, ⟨5, none, ReferenceType.ROOT, "main", 0⟩)] true [] [])
          (TraceOp.moduleEdge 1 5 "x")).g_index 5).map Object.m_type_ref =
          some .ROOT)) :=
  ⟨⟨rfl, by decide⟩, first_discovery_wins _ _ 5 rfl (by decide)⟩

-- Normal forms of the `gc_record_*` callbacks on the fresh-identity path
-- (recording on, `to`-identity not yet indexed).

theorem target_found_hit (st : TraceState) (c : Nat) (hc : c ∈ st.g_targets) :
    target_found st c =
      { st with
          events := st.events ++ [.targetFound c, .ancestorChainDump c]
          g_targets := st.g_targets.erase c } := by
  unfold target_found
  rw [if_pos hc]

theorem target_found_miss (st : TraceState) (c : Nat) (hc : c ∉ st.g_targets) :
    target_found st c = st := by
  unfold target_found
  rw [if_neg hc]

theorem gc_record_root_new (st : TraceState) (r : Nat) (name : String)
    (hrec : st.g_recording = true) (hr0 : r ≠ 0)
    (hnew : lookupIndex st.g_index r = none) :
    gc_record_root st r name =
      target_found
        { FR (FR st "root") "root inserted" with
            g_index := (r, (Object.init r).set_root name) :: st.g_index } r := by
  unfold gc_record_root
  rw [if_neg (by rw [FR_g_recording, hrec]; simp [hr0])]
  rw [if_neg (by rw [FR_g_index, hnew]; simp)]
  simp only [FR_g_index]

theorem gc_record_frame_to_object_edge_new (st : TraceState) (frm t : Nat)
    (hrec : st.g_recording = true) (hnew : lookupIndex st.g_index t = none) :
    gc_record_frame_to_object_edge st frm t =
      target_found
        { FR (FR st "from, to") "item inserted" with
            g_index := (t, ((Object.init t).set_parent_frame
                ((t, Object.init t) :: st.g_index) frm).1) :: st.g_index
            events := st.events ++ ((Object.init t).set_parent_frame
                ((t, Object.init t) :: st.g_index) frm).2 } t := by
  unfold gc_record_frame_to_object_edge
  rw [if_neg (by rw [FR_g_recording, hrec]; simp)]
  rw [if_neg (by rw [FR_g_index, hnew]; simp)]
  simp only [FR_g_index, FR_events]

theorem gc_record_task_to_frame_edge_new (st : TraceState) (frm t : Nat)
    (hrec : st.g_recording = true) (hnew : lookupIndex st.g_index t = none) :
    gc_record_task_to_frame_edge st frm t =
      { FR (FR st "task, frame") "item inserted" with
          g_index := (t, ((Object.init t).set_parent_task
              ((t, Object.init t) :: st.g_index) frm).1) :: st.g_index
          events := st.events ++ ((Object.init t).set_parent_task
              ((t, Object.init t) :: st.g_index) frm).2 } := by
  unfold gc_record_task_to_frame_edge
  rw [if_neg (by rw [FR_g_recording, hrec]; simp)]
  rw [if_neg (by rw [FR_g_index, hnew]; simp)]
  simp only [FR_g_index, FR_events]

theorem gc_record_frame_to_frame_edge_new (st : TraceState) (frm t : Nat)
    (hrec : st.g_recording = true) (hnew : lookupIndex st.g_index t = none) :
    gc_record_frame_to_frame_edge st frm t =
      { FR (FR st "from, to") "item inserted" with
          g_index := (t, ((Object.init t).set_parent_frame
              ((t, Object.init t) :: st.g_index) frm).1) :: st.g_index
          events := st.events ++ ((Object.init t).set_parent_frame
              ((t, Object.init t) :: st.g_index) frm).2 } := by
  unfold gc_record_frame_to_frame_edge
  rw [if_neg (by rw [FR_g_recording, hrec]; simp)]
  rw [if_neg (by rw [FR_g_index, hnew]; simp)]
  simp only [FR_g_index, FR_events]

theorem gc_record_array_edge_new (st : TraceState) (frm t idx : Nat)
    (hrec : st.g_recording = true) (hnew : lookupIndex st.g_index t = none) :
    gc_record_array_edge st frm t idx =
      target_found
        { FR (FR st "from, to, index") "item inserted" with
            g_index := (t, ((Object.init t).set_parent_array
                ((t, Object.init t) :: st.g_index) frm idx).1) :: st.g_index
            events := st.events ++ ((Object.init t).set_parent_array
                ((t, Object.init t) :: st.g_index) frm idx).2 } t := by
  unfold gc_record_array_edge
  rw [if_neg (by rw [FR_g_recording, hrec]; simp)]
  rw [if_neg (by rw [FR_g_index, hnew]; simp)]
  simp only [FR_g_index, FR_events]

theorem gc_record_module_edge_new (st : TraceState) (frm t : Nat) (name : String)
    (hrec : st.g_recording = true) (hnew : lookupIndex st.g_index t = none) :
    gc_record_module_edge st frm t name =
      target_found
        { FR (FR st "module, value, name") "item inserted" with
            g_index := (t, ((Object.init t).set_parent_module
                ((t, Object.init t) :: st.g_index) frm name).1) :: st.g_index
            events := st.events ++ ((Object.init t).set_parent_module
                ((t, Object.init t) :: st.g_index) frm name).2 } t := by
  unfold gc_record_module_edge
  rw [if_neg (by rw [FR_g_recording, hrec]; simp)]
  rw [if_neg (by rw [FR_g_index, hnew]; simp)]
  simp only [FR_g_index, FR_events]

theorem gc_record_object_edge_new (st : TraceState) (frm t fi : Nat) (fn : String)
    (le : Bool) (hrec : st.g_recording = true)
    (hnew : lookupIndex st.g_index t = none) :
    gc_record_object_edge st frm t fi fn le =
      target_found
        { FR (FR st "from, to, slot") "item inserted" with
            g_index := (t, ((Object.init t).set_parent_field
                ((t, Object.init t) :: st.g_index) frm fi fn).1) :: st.g_index
            events := (st.events ++ (if le then [Event.debuggerTrap] else [])) ++
              ((Object.init t).set_parent_field
                ((t, Object.init t) :: st.g_index) frm fi fn).2 } t := by
  unfold gc_record_object_edge
  rw [if_neg (by rw [FR_g_recording, hrec]; simp)]
  rw [if_neg (by rw [FR_g_index, hnew]; simp)]
  cases le with
  | false => simp [FR_g_index, FR_events]
  | true => simp [FR_g_index, FR_events]

-- The diagnostic events emitted by the `set_parent` overloads never
-- include a target-found report.

theorem set_parent_module_no_report (obj : Object) (index : List (Nat × Object))
    (m : Nat) (n : String) (p : Nat) :
    Event.targetFound p ∉ (obj.set_parent_module index m n).2 := by
  unfold Object.set_parent_module
  split <;> simp [stopAndDebugEvents]

theorem set_parent_task_no_report (obj : Object) (index : List (Nat × Object))
    (f p : Nat) :
    Event.targetFound p ∉ (obj.set_parent_task index f).2 := by
  unfold Object.set_parent_task
  split <;> simp [stopAndDebugEvents]

theorem set_parent_frame_no_report (obj : Object) (index : List (Nat × Object))
    (f p : Nat) :
    Event.targetFound p ∉ (obj.set_parent_frame index f).2 := by
  unfold Object.set_parent_frame
  split <;> simp [stopAndDebugEvents]

theorem set_parent_array_no_report (obj : Object) (index : List (Nat × Object))
    (a idx p : Nat) :
    Event.targetFound p ∉ (obj.set_parent_array index a idx).2 := by
  unfold Object.set_parent_array
  split <;> simp [stopAndDebugEvents]

theorem set_parent_field_no_report (obj : Object) (index : List (Nat × Object))
    (o fi : Nat) (fn : String) (p : Nat) :
    Event.targetFound p ∉ (obj.set_parent_field index o fi fn).2 := by
  unfold Object.set_parent_field
  split <;> simp [stopAndDebugEvents]

-- The `set_parent` overloads on a failed parent lookup: the parent stays
-- untouched and `STOP_AND_DEBUG` fires.

theorem set_parent_module_miss (obj : Object) (index : List (Nat × Object))
    (m : Nat) (n : String) (h : lookupIndex index m = none) :
    obj.set_parent_module index m n =
      ({ obj with m_type_ref := .MODULE_BINDING, m_name := n },
        stopAndDebugEvents obj.m_pointer) := by
  unfold Object.set_parent_module
  rw [h]

theorem set_parent_task_miss (obj : Object) (index : List (Nat × Object))
    (f : Nat) (h : lookupIndex index f = none) :
    obj.set_parent_task index f =
      ({ obj with m_type_ref := .TASK }, stopAndDebugEvents obj.m_pointer) := by
  unfold Object.set_parent_task
  rw [h]

theorem set_parent_frame_miss (obj : Object) (index : List (Nat × Object))
    (f : Nat) (h : lookupIndex index f = none) :
    obj.set_parent_frame index f =
      ({ obj with m_type_ref := .FRAME }, stopAndDebugEvents obj.m_pointer) := by
  unfold Object.set_parent_frame
  rw [h]

theorem set_parent_array_miss (obj : Object) (index : List (Nat × Object))
    (a idx : Nat) (h : lookupIndex index a = none) :
    obj.set_parent_array index a idx =
      ({ obj with m_type_ref := .ARRAY, m_index := idx },
        stopAndDebugEvents obj.m_pointer) := by
  unfold Object.set_parent_array
  rw [h]

theorem set_parent_field_miss (obj : Object) (index : List (Nat × Object))
    (o fi : Nat) (fn : String) (h : lookupIndex index o = none) :
    obj.set_parent_field index o fi fn =
      ({ obj with m_type_ref := .FIELD, m_index := fi, m_name := fn },
        stopAndDebugEvents obj.m_pointer) := by
  unfold Object.set_parent_field
  rw [h]

/-- `target_found` never reports an identity that is not in the watch
set: any `targetFound p` event in its output was already there. -/
theorem target_found_no_new_report (st : TraceState) (c p : Nat)
    (h : p ∉ st.g_targets)
    (hm : Event.targetFound p ∈ (target_found st c).events) :
    Event.targetFound p ∈ st.events := by
  unfold target_found at hm
  by_cases hc : c ∈ st.g_targets
  · rw [if_pos hc] at hm
    simp only [List.mem_append] at hm
    rcases hm with hm | hm
    · exact hm
    · exfalso
      have hcp : c ≠ p := fun he => h (he ▸ hc)
      simp at hm
      exact hcp hm.symm
  · rwa [if_neg hc] at hm

theorem target_found_events_mono (st : TraceState) (c : Nat) (e : Event)
    (h : e ∈ st.events) : e ∈ (target_found st c).events := by
  unfold target_found
  split
  · simp [h]
  · exact h

/-- No callback produces a `targetFound p` report when `p` is not in the
watch set (shared helper behind the one-shot part of the watch-set
theorem). -/
theorem applyOp_no_new_report (st : TraceState) (op : TraceOp) (p : Nat)
    (h : p ∉ st.g_targets)
    (hm : Event.targetFound p ∈ (applyOp st op).events) :
    Event.targetFound p ∈ st.events := by
  by_cases hrec : st.g_recording = true
  · cases op with
    | root r name =>
      by_cases hr0 : r = 0
      · subst hr0
        have he : (applyOp st (TraceOp.root 0 name)).events = st.events := by
          simp [applyOp, gc_record_root, FR_events]
        rwa [he] at hm
      · by_cases hnew : lookupIndex st.g_index r = none
        · rw [show applyOp st (.root r name) = gc_record_root st r name from rfl,
            gc_record_root_new st r name hrec hr0 hnew] at hm
          have h2 := target_found_no_new_report _ r p (by simpa [FR_g_targets] using h) hm
          simpa [FR_events] using h2
        · have hpres : (lookupIndex st.g_index r).isSome := by
            cases hl : lookupIndex st.g_index r
            · exact absurd hl hnew
            · simp
          rwa [(applyOp_present_noop st (.root r name) r rfl hpres).2.2] at hm
    | frameToObject frm t =>
      by_cases hnew : lookupIndex st.g_index t = none
      · rw [show applyOp st (.frameToObject frm t) =
            gc_record_frame_to_object_edge st frm t from rfl,
          gc_record_frame_to_object_edge_new st frm t hrec hnew] at hm
        have h2 := target_found_no_new_report _ t p (by simpa [FR_g_targets] using h) hm
        simp only [List.mem_append] at h2
        rcases h2 with h2 | h2
        · exact h2
        · exact absurd h2 (set_parent_frame_no_report _ _ _ _)
      · have hpres : (lookupIndex st.g_index t).isSome := by
          cases hl : lookupIndex st.g_index t
          · exact absurd hl hnew
          · simp
        rwa [(applyOp_present_noop st (.frameToObject frm t) t rfl hpres).2.2] at hm
    | taskToFrame frm t =>
      by_cases hnew : lookupIndex st.g_index t = none
      · rw [show applyOp st (.taskToFrame frm t) =
            gc_record_task_to_frame_edge st frm t from rfl,
          gc_record_task_to_frame_edge_new st frm t hrec hnew] at hm
        simp only [List.mem_append] at hm
        rcases hm with hm | hm
        · exact hm
        · exact absurd hm (set_parent_task_no_report _ _ _ _)
      · have hpres : (lookupIndex st.g_index t).isSome := by
          cases hl : lookupIndex st.g_index t
          · exact absurd hl hnew
          · simp
        rwa [(applyOp_present_noop st (.taskToFrame frm t) t rfl hpres).2.2] at hm
    | frameToFrame frm t =>
      by_cases hnew : lookupIndex st.g_index t = none
      · rw [show applyOp st (.frameToFrame frm t) =
            gc_record_frame_to_frame_edge st frm t from rfl,
          gc_record_frame_to_frame_edge_new st frm t hrec hnew] at hm
        simp only [List.mem_append] at hm
        rcases hm with hm | hm
        · exact hm
        · exact absurd hm (set_parent_frame_no_report _ _ _ _)
      · have hpres : (lookupIndex st.g_index t).isSome := by
          cases hl : lookupIndex st.g_index t
          · exact absurd hl hnew
          · simp
        rwa [(applyOp_present_noop st (.frameToFrame frm t) t rfl hpres).2.2] at hm
    | arrayEdge frm t idx =>
      by_cases hnew : lookupIndex st.g_index t = none
      · rw [show applyOp st (.arrayEdge frm t idx) =
            gc_record_array_edge st frm t idx from rfl,
          gc_record_array_edge_new st frm t idx hrec hnew] at hm
        have h2 := target_found_no_new_report _ t p (by simpa [FR_g_targets] using h) hm
        simp only [List.mem_append] at h2
        rcases h2 with h2 | h2
        · exact h2
        · exact absurd h2 (set_parent_array_no_report _ _ _ _ _)
      · have hpres : (lookupIndex st.g_index t).isSome := by
          cases hl : lookupIndex st.g_index t
          · exact absurd hl hnew
          · simp
        rwa [(applyOp_present_noop st (.arrayEdge frm t idx) t rfl hpres).2.2] at hm
    | moduleEdge frm t name =>
      by_cases hnew : lookupIndex st.g_index t = none
      · rw [show applyOp st (.moduleEdge frm t name) =
            gc_record_module_edge st frm t name from rfl,
          gc_record_module_edge_new st frm t name hrec hnew] at hm
        have h2 := target_found_no_new_report _ t p (by simpa [FR_g_targets] using h) hm
        simp only [List.mem_append] at h2
        rcases h2 with h2 | h2
        · exact h2
        · exact absurd h2 (set_parent_module_no_report _ _ _ _ _)
      · have hpres : (lookupIndex st.g_index t).isSome := by
          cases hl : lookupIndex st.g_index t
          · exact absurd hl hnew
          · simp
        rwa [(applyOp_present_noop st (.moduleEdge frm t name) t rfl hpres).2.2] at hm
    | moduleEdgeGlobalref frm t name =>
      simp only [applyOp, gc_record_module_edge_globalref] at hm
      by_cases hcond : (!st.g_recording || t == 0) = true
      · rw [if_pos hcond] at hm
        exact hm
      · rw [if_neg hcond] at hm
        by_cases hnew : lookupIndex st.g_index t = none
        · rw [gc_record_module_edge_new st frm t _ hrec hnew] at hm
          have h2 := target_found_no_new_report _ t p (by simpa [FR_g_targets] using h) hm
          simp only [List.mem_append] at h2
          rcases h2 with h2 | h2
          · exact h2
          · exact absurd h2 (set_parent_module_no_report _ _ _ _ _)
        · have hpres : (lookupIndex st.g_index t).isSome := by
            cases hl : lookupIndex st.g_index t
            · exact absurd hl hnew
            · simp
          have heq := (applyOp_present_noop st
            (.moduleEdge frm t (name ++ "_globalref")) t rfl hpres).2.2
          rw [show applyOp st (.moduleEdge frm t (name ++ "_globalref")) =
              gc_record_module_edge st frm t (name ++ "_globalref") from rfl] at heq
          rwa [heq] at hm

    | objectEdge frm t fi fn le =>
      by_cases hnew : lookupIndex st.g_index t = none
      · rw [show applyOp st (.objectEdge frm t fi fn le) =
            gc_record_object_edge st frm t fi fn le from rfl,
          gc_record_object_edge_new st frm t fi fn le hrec hnew] at hm
        have h2 := target_found_no_new_report _ t p (by simpa [FR_g_targets] using h) hm
        simp only [List.mem_append] at h2
        rcases h2 with (h2 | h2) | h2
        · exact h2
        · cases le <;> simp at h2
        · exact absurd h2 (set_parent_field_no_report _ _ _ _ _ _)
      · have hpres : (lookupIndex st.g_index t).isSome := by
          cases hl : lookupIndex st.g_index t
          · exact absurd hl hnew
          · simp
        rwa [(applyOp_present_noop st (.objectEdge frm t fi fn le) t rfl hpres).2.2] at hm
    | internalEdge frm t =>
      have he : (applyOp st (TraceOp.internalEdge frm t)).events = st.events := by
        simp [applyOp, gc_record_internal_edge, FR_events]
      rwa [he] at hm
    | hiddenEdge frm bytes =>
      have he : (applyOp st (TraceOp.hiddenEdge frm bytes)).events = st.events := by
        simp [applyOp, gc_record_hidden_edge, FR_events]
      rwa [he] at hm
  · have hh : st.g_recording = false := by
      cases hb : st.g_recording
      · rfl
      · exact absurd hb hrec
    rwa [(applyOp_not_recording st op hh).2.2] at hm

/-- Which callbacks call `target_found` after creating a node (the
`target_found` call sites in `gc-tracing.cpp`): the root, frame-to-object,
array, module-binding and field edges do; the task-to-frame and
frame-to-frame edges do not. -/
def checksWatchSet : TraceOp → Bool
  | .root _ _ => true
  | .frameToObject _ _ => true
  | .arrayEdge _ _ _ => true
  | .moduleEdge _ _ _ => true
  | .moduleEdgeGlobalref _ _ _ => true
  | .objectEdge _ _ _ _ _ => true
  | .taskToFrame _ _ => false
  | .frameToFrame _ _ => false
  | .internalEdge _ _ => false
  | .hiddenEdge _ _ => false

theorem target_found_reports_of (st0 : TraceState) (stT : List Nat) (p : Nat)
    (hT : st0.g_targets = stT) (hp : p ∈ stT) (hnd : stT.Nodup) :
    (target_found st0 p).g_targets = stT.erase p ∧
    p ∉ (target_found st0 p).g_targets ∧
    Event.targetFound p ∈ (target_found st0 p).events ∧
    Event.ancestorChainDump p ∈ (target_found st0 p).events := by
  rw [target_found_hit st0 p (by rw [hT]; exact hp)]
  refine ⟨by simp [hT], ?_, by simp, by simp⟩
  simp [hT, List.Nodup.mem_erase_iff hnd]

/-- C1 corrected (watch-set check on new nodes): when a callback creates a
new node for a watched identity, the root, frame-to-object, array,
module-binding and field edges print the target, invoke chain
reconstruction and remove the identity from the watch set; the
task-to-frame and frame-to-frame edges create the node without consulting
the watch set at all; and an identity absent from the watch set is never
reported by any callback, so a found target is reported exactly once per
session. -/
theorem watch_set_check_on_new_node (st : TraceState) (op : TraceOp) (p : Nat)
    (hrec : st.g_recording = true) (hop : opTo op = some p) (hp0 : p ≠ 0)
    (hnew : lookupIndex st.g_index p = none) (hp : p ∈ st.g_targets)
    (hnd : st.g_targets.Nodup) :
    (checksWatchSet op = true →
      (applyOp st op).g_targets = st.g_targets.erase p ∧
      p ∉ (applyOp st op).g_targets ∧
      Event.targetFound p ∈ (applyOp st op).events ∧
      Event.ancestorChainDump p ∈ (applyOp st op).events) ∧
    (checksWatchSet op = false →
      (lookupIndex (applyOp st op).g_index p).isSome ∧
      (applyOp st op).g_targets = st.g_targets ∧
      (Event.targetFound p ∈ (applyOp st op).events ↔
        Event.targetFound p ∈ st.events)) ∧
    (∀ st2 op2, p ∉ st2.g_targets →
      Event.targetFound p ∈ (applyOp st2 op2).events →
      Event.targetFound p ∈ st2.events) := by
  have hAB : (checksWatchSet op = true →
      (applyOp st op).g_targets = st.g_targets.erase p ∧
      p ∉ (applyOp st op).g_targets ∧
      Event.targetFound p ∈ (applyOp st op).events ∧
      Event.ancestorChainDump p ∈ (applyOp st op).events) ∧
    (checksWatchSet op = false →
      (lookupIndex (applyOp st op).g_index p).isSome ∧
      (applyOp st op).g_targets = st.g_targets ∧
      (Event.targetFound p ∈ (applyOp st op).events ↔
        Event.targetFound p ∈ st.events)) := by
    cases op with
    | root r name =>
      obtain rfl : p = r := by simpa [opTo] using hop.symm
      refine ⟨fun _ => ?_, fun hfalse => by simp [checksWatchSet] at hfalse⟩
      rw [show applyOp st (.root p name) = gc_record_root st p name from rfl,
        gc_record_root_new st p name hrec hp0 hnew]
      exact target_found_reports_of _ st.g_targets p (by simp [FR_g_targets]) hp hnd
    | frameToObject frm r =>
      obtain rfl : p = r := by simpa [opTo] using hop.symm
      refine ⟨fun _ => ?_, fun hfalse => by simp [checksWatchSet] at hfalse⟩
      rw [show applyOp st (.frameToObject frm p) =
          gc_record_frame_to_object_edge st frm p from rfl,
        gc_record_frame_to_object_edge_new st frm p hrec hnew]
      exact target_found_reports_of _ st.g_targets p (by simp [FR_g_targets]) hp hnd
    | arrayEdge frm r idx =>
      obtain rfl : p = r := by simpa [opTo] using hop.symm
      refine ⟨fun _ => ?_, fun hfalse => by simp [checksWatchSet] at hfalse⟩
      rw [show applyOp st (.arrayEdge frm p idx) =
          gc_record_array_edge st frm p idx from rfl,
        gc_record_array_edge_new st frm p idx hrec hnew]
      exact target_found_reports_of _ st.g_targets p (by simp [FR_g_targets]) hp hnd
    | moduleEdge frm r name =>
      obtain rfl : p = r := by simpa [opTo] using hop.symm
      refine ⟨fun _ => ?_, fun hfalse => by simp [checksWatchSet] at hfalse⟩
      rw [show applyOp st (.moduleEdge frm p name) =
          gc_record_module_edge st frm p name from rfl,
        gc_record_module_edge_new st frm p name hrec hnew]
      exact target_found_reports_of _ st.g_targets p (by simp [FR_g_targets]) hp hnd
    | moduleEdgeGlobalref frm r name =>
      obtain rfl : p = r := by simpa [opTo] using hop.symm
      refine ⟨fun _ => ?_, fun hfalse => by simp [checksWatchSet] at hfalse⟩
      rw [show applyOp st (.moduleEdgeGlobalref frm p name) =
          gc_record_module_edge_globalref st frm p name from rfl]
      unfold gc_record_module_edge_globalref
      rw [if_neg (by simp [hrec, hp0]), gc_record_module_edge_new st frm p _ hrec hnew]
      exact target_found_reports_of _ st.g_targets p (by simp [FR_g_targets]) hp hnd
    | objectEdge frm r fi fn le =>
      obtain rfl : p = r := by simpa [opTo] using hop.symm
      refine ⟨fun _ => ?_, fun hfalse => by simp [checksWatchSet] at hfalse⟩
      rw [show applyOp st (.objectEdge frm p fi fn le) =
          gc_record_object_edge st frm p fi fn le from rfl,
        gc_record_object_edge_new st frm p fi fn le hrec hnew]
      exact target_found_reports_of _ st.g_targets p (by simp [FR_g_targets]) hp hnd
    | taskToFrame frm r =>
      obtain rfl : p = r := by simpa [opTo] using hop.symm
      refine ⟨fun htrue => by simp [checksWatchSet] at htrue, fun _ => ?_⟩
      rw [show applyOp st (.taskToFrame frm p) =
          gc_record_task_to_frame_edge st frm p from rfl,
        gc_record_task_to_frame_edge_new st frm p hrec hnew]
      refine ⟨by simp [lookupIndex], by simp [FR_g_targets], ?_, ?_⟩
      · intro hmem
        simp only [List.mem_append] at hmem
        rcases hmem with hmem | hmem
        · exact hmem
        · exact absurd hmem (set_parent_task_no_report _ _ _ _)
      · intro hmem
        simp [hmem]
    | frameToFrame frm r =>
      obtain rfl : p = r := by simpa [opTo] using hop.symm
      refine ⟨fun htrue => by simp [checksWatchSet] at htrue, fun _ => ?_⟩
      rw [show applyOp st (.frameToFrame frm p) =
          gc_record_frame_to_frame_edge st frm p from rfl,
        gc_record_frame_to_frame_edge_new st frm p hrec hnew]
      refine ⟨by simp [lookupIndex], by simp [FR_g_targets], ?_, ?_⟩
      · intro hmem
        simp only [List.mem_append] at hmem
        rcases hmem with hmem | hmem
        · exact hmem
        · exact absurd hmem (set_parent_frame_no_report _ _ _ _)
      · intro hmem
        simp [hmem]
    | internalEdge frm r => simp [opTo] at hop
    | hiddenEdge frm bytes => simp [opTo] at hop
  exact ⟨hAB.1, hAB.2,
    fun st2 op2 hno hmem => applyOp_no_new_report st2 op2 p hno hmem⟩

/-- Witness for `watch_set_check_on_new_node`: recording a root for the
watched identity 5 in a fresh session. -/
theorem watch_set_check_on_new_node_witness :
    ((TraceState.mk [5] true [] false [] []).g_recording = true ∧
      opTo (TraceOp.root 5 "main") = some 5 ∧ (5 : Nat) ≠ 0 ∧
      lookupIndex (TraceState.mk [5] true [] false [] []).g_index 5 = none ∧
      5 ∈ (TraceState.mk [5] true [] false [] []).g_targets ∧
      (TraceState.mk [5] true [] false [] []).g_targets.Nodup) ∧
    ((checksWatchSet (TraceOp.root 5 "main") = true →
      (applyOp (TraceState.mk [5] true [] false [] [])
          (TraceOp.root 5 "main")).g_targets =
        (TraceState.mk [5] true [] false [] []).g_targets.erase 5 ∧
      5 ∉ (applyOp (TraceState.mk [5] true [] false [] [])
          (TraceOp.root 5 "main")).g_targets ∧
      Event.targetFound 5 ∈ (applyOp (TraceState.mk [5] true [] false [] [])
          (TraceOp.root 5 "main")).events ∧
      Event.ancestorChainDump 5 ∈ (applyOp (TraceState.mk [5] true [] false [] [])
          (TraceOp.root 5 "main")).events) ∧
    (checksWatchSet (TraceOp.root 5 "main") = false →
      (lookupIndex (applyOp (TraceState.mk [5] true [] false [] [])
          (TraceOp.root 5 "main")).g_index 5).isSome ∧
      (applyOp (TraceState.mk [5] true [] false [] [])
          (TraceOp.root 5 "main")).g_targets =
        (TraceState.mk [5] true [] false [] []).g_targets ∧
      (Event.targetFound 5 ∈ (applyOp (TraceState.mk [5] true [] false [] [])
          (TraceOp.root 5 "main")).events ↔
        Event.targetFound 5 ∈ (TraceState.mk [5] true [] false [] []).events)) ∧
    (∀ st2 op2, 5 ∉ st2.g_targets →
      Event.targetFound 5 ∈ (applyOp st2 op2).events →
      Event.targetFound 5 ∈ st2.events)) :=
  ⟨⟨rfl, rfl, by decide, rfl, by decide, by decide⟩,
    watch_set_check_on_new_node _ _ 5 rfl rfl (by decide) rfl (by decide) (by decide)⟩

/-- Counterexample to C1 as stated: a task-to-frame edge creates a new
node for the watched identity 5 (the parent task 1 is already indexed),
yet the watch set still contains 5 and no target-found report is printed —
the task-to-frame callback never consults the watch set. -/
theorem task_to_frame_skips_watch_set_cex :
    (lookupIndex (gc_record_task_to_frame_edge
        (TraceState.mk [5] true [(1, ⟨1, none, ReferenceType.ROOT, "t", 0⟩)] false [] [])
        1 5).g_index 5).isSome ∧
    (gc_record_task_to_frame_edge
        (TraceState.mk [5] true [(1, ⟨1, none, ReferenceType.ROOT, "t", 0⟩)] false [] [])
        1 5).g_targets = [5] ∧
    Event.targetFound 5 ∉ (gc_record_task_to_frame_edge
        (TraceState.mk [5] true [(1, ⟨1, none, ReferenceType.ROOT, "t", 0⟩)] false [] [])
        1 5).events := by
  decide

/-- The `from`-identity whose node a callback looks up to resolve the
parent, for the callbacks that perform such a lookup. -/
def opFrom : TraceOp → Option Nat
  | .frameToObject f _ => some f
  | .taskToFrame f _ => some f
  | .frameToFrame f _ => some f
  | .arrayEdge f _ _ => some f
  | .moduleEdge f _ _ => some f
  | .moduleEdgeGlobalref f _ _ => some f
  | .objectEdge f _ _ _ _ => some f
  | .root _ _ => none
  | .internalEdge _ _ => none
  | .hiddenEdge _ _ => none

theorem lookupIndex_cons_ne (a : Nat) (v : Object) (idx : List (Nat × Object))
    (k : Nat) (h : a ≠ k) :
    lookupIndex ((a, v) :: idx) k = lookupIndex idx k := by
  simp [lookupIndex, h]

/-- C2 corrected (missing parent: degraded node plus a debugger trap):
when an edge is recorded for a new `to`-identity whose `from`-identity is
absent from the index, the node is still created with its parent left as
none, recent event-log entries are dumped and the cannot-find-parent error
is printed, but `STOP_AND_DEBUG` also raises a debugger trap (SIGTRAP)
rather than silently continuing; if execution resumes past the trap the
chain for that node is printed as `<unknown>` from that point. -/
theorem missing_parent_degraded (st : TraceState) (op : TraceOp) (f t : Nat)
    (hrec : st.g_recording = true) (hopt : opTo op = some t)
    (hopf : opFrom op = some f) (ht0 : t ≠ 0)
    (hnew : lookupIndex st.g_index t = none)
    (hmiss : lookupIndex st.g_index f = none) (hne : f ≠ t) :
    ∃ obj, lookupIndex (applyOp st op).g_index t = some obj ∧
      obj.m_parent = none ∧
      Event.frDumpN 128 ∈ (applyOp st op).events ∧
      Event.cannotFindParent t ∈ (applyOp st op).events ∧
      Event.debuggerTrap ∈ (applyOp st op).events ∧
      dump_ancestor_chain (applyOp st op).g_index obj 1 = some [mkChainLine obj] ∧
      (mkChainLine obj).parent_desc = ParentDesc.unknown := by
  have htf : t ≠ f := Ne.symm hne
  have hm2 : lookupIndex ((t, Object.init t) :: st.g_index) f = none := by
    rw [lookupIndex_cons_ne _ _ _ _ htf]
    exact hmiss
  cases op with
  | root r name => simp [opFrom] at hopf
  | internalEdge a b => simp [opFrom] at hopf
  | hiddenEdge a b => simp [opFrom] at hopf
  | frameToObject frm r =>
    obtain rfl : f = frm := by simpa [opFrom] using hopf.symm
    obtain rfl : t = r := by simpa [opTo] using hopt.symm
    rw [show applyOp st (.frameToObject f t) =
        gc_record_frame_to_object_edge st f t from rfl,
      gc_record_frame_to_object_edge_new st f t hrec hnew,
      set_parent_frame_miss _ _ _ hm2]
    refine ⟨{ Object.init t with m_type_ref := .FRAME }, ?_, rfl, ?_, ?_, ?_, ?_, ?_⟩
    · rw [target_found_g_index]
      simp [lookupIndex]
    · exact target_found_events_mono _ _ _ (by simp [stopAndDebugEvents, Object.init])
    · exact target_found_events_mono _ _ _ (by simp [stopAndDebugEvents, Object.init])
    · exact target_found_events_mono _ _ _ (by simp [stopAndDebugEvents, Object.init])
    · simp [dump_ancestor_chain, Object.init]
    · simp [mkChainLine, Object.init]
  | taskToFrame frm r =>
    obtain rfl : f = frm := by simpa [opFrom] using hopf.symm
    obtain rfl : t = r := by simpa [opTo] using hopt.symm
    rw [show applyOp st (.taskToFrame f t) =
        gc_record_task_to_frame_edge st f t from rfl,
      gc_record_task_to_frame_edge_new st f t hrec hnew,
      set_parent_task_miss _ _ _ hm2]
    refine ⟨{ Object.init t with m_type_ref := .TASK }, ?_, rfl, ?_, ?_, ?_, ?_, ?_⟩
    · simp [lookupIndex]
    · simp [stopAndDebugEvents, Object.init]
    · simp [stopAndDebugEvents, Object.init]
    · simp [stopAndDebugEvents, Object.init]
    · simp [dump_ancestor_chain, Object.init]
    · simp [mkChainLine, Object.init]
  | frameToFrame frm r =>
    obtain rfl : f = frm := by simpa [opFrom] using hopf.symm
    obtain rfl : t = r := by simpa [opTo] using hopt.symm
    rw [show applyOp st (.frameToFrame f t) =
        gc_record_frame_to_frame_edge st f t from rfl,
      gc_record_frame_to_frame_edge_new st f t hrec hnew,
      set_parent_frame_miss _ _ _ hm2]
    refine ⟨{ Object.init t with m_type_ref := .FRAME }, ?_, rfl, ?_, ?_, ?_, ?_, ?_⟩
    · simp [lookupIndex]
    · simp [stopAndDebugEvents, Object.init]
    · simp [stopAndDebugEvents, Object.init]
    · simp [stopAndDebugEvents, Object.init]
    · simp [dump_ancestor_chain, Object.init]
    · simp [mkChainLine, Object.init]
  | arrayEdge frm r idx =>
    obtain rfl : f = frm := by simpa [opFrom] using hopf.symm
    obtain rfl : t = r := by simpa [opTo] using hopt.symm
    rw [show applyOp st (.arrayEdge f t idx) =
        gc_record_array_edge st f t idx from rfl,
      gc_record_array_edge_new st f t idx hrec hnew,
      set_parent_array_miss _ _ _ _ hm2]
    refine ⟨{ Object.init t with m_type_ref := .ARRAY, m_index := idx },
      ?_, rfl, ?_, ?_, ?_, ?_, ?_⟩
    · rw [target_found_g_index]
      simp [lookupIndex]
    · exact target_found_events_mono _ _ _ (by simp [stopAndDebugEvents, Object.init])
    · exact target_found_events_mono _ _ _ (by simp [stopAndDebugEvents, Object.init])
    · exact target_found_events_mono _ _ _ (by simp [stopAndDebugEvents, Object.init])
    · simp [dump_ancestor_chain, Object.init]
    · simp [mkChainLine, Object.init]
  | moduleEdge frm r name =>
    obtain rfl : f = frm := by simpa [opFrom] using hopf.symm
    obtain rfl : t = r := by simpa [opTo] using hopt.symm
    rw [show applyOp st (.moduleEdge f t name) =
        gc_record_module_edge st f t name from rfl,
      gc_record_module_edge_new st f t name hrec hnew,
      set_parent_module_miss _ _ _ _ hm2]
    refine ⟨{ Object.init t with m_type_ref := .MODULE_BINDING, m_name := name },
      ?_, rfl, ?_, ?_, ?_, ?_, ?_⟩
    · rw [target_found_g_index]
      simp [lookupIndex]
    · exact target_found_events_mono _ _ _ (by simp [stopAndDebugEvents, Object.init])
    · exact target_found_events_mono _ _ _ (by simp [stopAndDebugEvents, Object.init])
    · exact target_found_events_mono _ _ _ (by simp [stopAndDebugEvents, Object.init])
    · simp [dump_ancestor_chain, Object.init]
    · simp [mkChainLine, Object.init]
  | moduleEdgeGlobalref frm r name =>
    obtain rfl : f = frm := by simpa [opFrom] using hopf.symm
    obtain rfl : t = r := by simpa [opTo] using hopt.symm
    rw [show applyOp st (.moduleEdgeGlobalref f t name) =
        gc_record_module_edge_globalref st f t name from rfl]
    unfold gc_record_module_edge_globalref
    rw [if_neg (by simp [hrec, ht0]),
      gc_record_module_edge_new st f t _ hrec hnew,
      set_parent_module_miss _ _ _ _ hm2]
    refine ⟨{ Object.init t with m_type_ref := .MODULE_BINDING, m_name := name ++ "_globalref" },
      ?_, rfl, ?_, ?_, ?_, ?_, ?_⟩
    · rw [target_found_g_index]
      simp [lookupIndex]
    · exact target_found_events_mono _ _ _ (by simp [stopAndDebugEvents, Object.init])
    · exact target_found_events_mono _ _ _ (by simp [stopAndDebugEvents, Object.init])
    · exact target_found_events_mono _ _ _ (by simp [stopAndDebugEvents, Object.init])
    · simp [dump_ancestor_chain, Object.init]
    · simp [mkChainLine, Object.init]
  | objectEdge frm r fi fn le =>
    obtain rfl : f = frm := by simpa [opFrom] using hopf.symm
    obtain rfl : t = r := by simpa [opTo] using hopt.symm
    rw [show applyOp st (.objectEdge f t fi fn le) =
        gc_record_object_edge st f t fi fn le from rfl,
      gc_record_object_edge_new st f t fi fn le hrec hnew,
      set_parent_field_miss _ _ _ _ _ hm2]
    refine ⟨{ Object.init t with m_type_ref := .FIELD, m_index := fi, m_name := fn },
      ?_, rfl, ?_, ?_, ?_, ?_, ?_⟩
    · rw [target_found_g_index]
      simp [lookupIndex]
    · exact target_found_events_mono _ _ _ (by simp [stopAndDebugEvents, Object.init])
    · exact target_found_events_mono _ _ _ (by simp [stopAndDebugEvents, Object.init])
    · exact target_found_events_mono _ _ _ (by simp [stopAndDebugEvents, Object.init])
    · simp [dump_ancestor_chain, Object.init]
    · simp [mkChainLine, Object.init]

/-- Witness for `missing_parent_degraded`: a module edge 7 → 5 recorded
while neither identity is indexed. -/
theorem missing_parent_degraded_witness :
    ((TraceState.mk [] true [] false [] []).g_recording = true ∧
      opTo (TraceOp.moduleEdge 7 5 "x") = some 5 ∧
      opFrom (TraceOp.moduleEdge 7 5 "x") = some 7 ∧ (5 : Nat) ≠ 0 ∧
      lookupIndex (TraceState.mk [] true [] false [] []).g_index 5 = none ∧
      lookupIndex (TraceState.mk [] true [] false [] []).g_index 7 = none ∧
      (7 : Nat) ≠ 5) ∧
    (∃ obj, lookupIndex (applyOp (TraceState.mk [] true [] false [] [])
          (TraceOp.moduleEdge 7 5 "x")).g_index 5 = some obj ∧
      obj.m_parent = none ∧
      Event.frDumpN 128 ∈ (applyOp (TraceState.mk [] true [] false [] [])
          (TraceOp.moduleEdge 7 5 "x")).events ∧
      Event.cannotFindParent 5 ∈ (applyOp (TraceState.mk [] true [] false [] [])
          (TraceOp.moduleEdge 7 5 "x")).events ∧
      Event.debuggerTrap ∈ (applyOp (TraceState.mk [] true [] false [] [])
          (TraceOp.moduleEdge 7 5 "x")).events ∧
      dump_ancestor_chain (applyOp (TraceState.mk [] true [] false [] [])
          (TraceOp.moduleEdge 7 5 "x")).g_index obj 1 = some [mkChainLine obj] ∧
      (mkChainLine obj).parent_desc = ParentDesc.unknown) :=
  ⟨⟨rfl, rfl, rfl, by decide, rfl, rfl, by decide⟩,
    missing_parent_degraded _ _ 7 5 rfl rfl rfl (by decide) rfl rfl (by decide)⟩

/-- Counterexample to C2 as stated: on the missing-parent path the code
does not merely dump diagnostics and continue — `STOP_AND_DEBUG` raises a
debugger trap (SIGTRAP, process-terminating outside a debugger). -/
theorem missing_parent_trap_cex :
    Event.debuggerTrap ∈
      (gc_record_module_edge (TraceState.mk [] true [] false [] []) 7 5 "x").events := by
  decide

/-- Reduction of `jl_gc_trace` on a non-empty target set. -/
theorem jl_gc_trace_eq (st : TraceState) (warmup collection : List TraceOp)
    (hne : st.g_targets ≠ []) :
    jl_gc_trace st warmup collection =
      (fun mid =>
        { mid with
            events := mid.events ++
              (if mid.g_targets.isEmpty then [Event.allTargetsDetected]
               else mid.g_targets.map Event.targetNotDetected)
            g_targets := []
            g_index := []
            g_recording := false
            g_flight_recorder_enabled := false })
      (runOps { runOps { st with
          g_index := []
          events := st.events ++ st.g_targets.map Event.checkingTarget } warmup with
          g_recording := true
          g_flight_recorder_enabled := true } collection) := by
  have hE : st.g_targets.isEmpty = false := by
    cases h : st.g_targets
    · exact absurd h hne
    · rfl
  unfold jl_gc_trace
  rw [if_neg (by simp [hE])]

/-- C7 (session driver): started Idle with a non-empty target set,
`jl_gc_trace` invokes the full collection from a state whose index has
been cleared while the watch set is still the original one, with recording
on and the event log enabled; on return every identity the collection left
in the watch set has been reported as not detected, and the watch set, the
index, the recording flag and the event log are all cleared. -/
theorem run_session_spec (st : TraceState) (warmup collection : List TraceOp)
    (hne : st.g_targets ≠ []) (hidle : st.g_recording = false) :
    ∃ pre,
      pre = { runOps { st with
          g_index := []
          events := st.events ++ st.g_targets.map Event.checkingTarget } warmup with
          g_recording := true
          g_flight_recorder_enabled := true } ∧
      pre.g_index = [] ∧
      pre.g_targets = st.g_targets ∧
      pre.g_recording = true ∧
      pre.g_flight_recorder_enabled = true ∧
      (jl_gc_trace st warmup collection).g_targets = [] ∧
      (jl_gc_trace st warmup collection).g_index = [] ∧
      (jl_gc_trace st warmup collection).g_recording = false ∧
      (jl_gc_trace st warmup collection).g_flight_recorder_enabled = false ∧
      ∀ p, p ∈ (runOps pre collection).g_targets →
        Event.targetNotDetected p ∈ (jl_gc_trace st warmup collection).events := by
  set st2 : TraceState := { st with
      g_index := []
      events := st.events ++ st.g_targets.map Event.checkingTarget } with hst2
  set pre0 : TraceState := { runOps st2 warmup with
      g_recording := true
      g_flight_recorder_enabled := true } with hpre0
  have hw := runOps_not_recording warmup st2 hidle
  refine ⟨pre0, rfl, hw.1, hw.2.1, rfl, rfl, ?_, ?_, ?_, ?_, ?_⟩
  · rw [jl_gc_trace_eq st warmup collection hne]
  · rw [jl_gc_trace_eq st warmup collection hne]
  · rw [jl_gc_trace_eq st warmup collection hne]
  · rw [jl_gc_trace_eq st warmup collection hne]
  · intro p hp
    rw [jl_gc_trace_eq st warmup collection hne, ← hst2, ← hpre0]
    show Event.targetNotDetected p ∈
      (runOps pre0 collection).events ++
        (if (runOps pre0 collection).g_targets.isEmpty then [Event.allTargetsDetected]
         else (runOps pre0 collection).g_targets.map Event.targetNotDetected)
    have h5 : (runOps pre0 collection).g_targets.isEmpty = false := by
      cases h : (runOps pre0 collection).g_targets with
      | nil =>
        rw [h] at hp
        exact absurd hp (List.not_mem_nil p)
      | cons a l => rfl
    rw [if_neg (by simp [h5])]
    exact List.mem_append_right _ (List.mem_map_of_mem _ hp)

/-- Witness for `run_session_spec`: a session watching the identity 5 in
which the collection reports nothing, so 5 is reported as not detected. -/
theorem run_session_spec_witness :
    ((TraceState.mk [5] false [] false [] []).g_targets ≠ [] ∧
      (TraceState.mk [5] false [] false [] []).g_recording = false) ∧
    (∃ pre,
      pre = { runOps { TraceState.mk [5] false [] false [] [] with
          g_index := []
          events := (TraceState.mk [5] false [] false [] []).events ++
            (TraceState.mk [5] false [] false [] []).g_targets.map Event.checkingTarget }
          ([] : List TraceOp) with
          g_recording := true
          g_flight_recorder_enabled := true } ∧
      pre.g_index = [] ∧
      pre.g_targets = (TraceState.mk [5] false [] false [] []).g_targets ∧
      pre.g_recording = true ∧
      pre.g_flight_recorder_enabled = true ∧
      (jl_gc_trace (TraceState.mk [5] false [] false [] []) [] []).g_targets = [] ∧
      (jl_gc_trace (TraceState.mk [5] false [] false [] []) [] []).g_index = [] ∧
      (jl_gc_trace (TraceState.mk [5] false [] false [] []) [] []).g_recording = false ∧
      (jl_gc_trace (TraceState.mk [5] false [] false [] [])
          [] []).g_flight_recorder_enabled = false ∧
      ∀ p, p ∈ (runOps pre ([] : List TraceOp)).g_targets →
        Event.targetNotDetected p ∈
          (jl_gc_trace (TraceState.mk [5] false [] false [] []) [] []).events) :=
  ⟨⟨by decide, rfl⟩, run_session_spec _ [] [] (by decide) rfl⟩

end GCTrace
